import Mathlib

/-!
# Verification of the HealthCoachAI agent layer

A shallow embedding, in Lean 4, of the request-handling layer of the
HealthCoachAI repository: the two agent modules
(`healthmate_coach_ai/agent.py` and `health_coach_ai/agent.py`), namely

* the JSON values the layer moves around, with a serializer and a model of
  `json.loads` (a fuel-based JSON parser over character lists);
* base64url encoding/decoding with the `'='`-padding adjustment done by
  `_decode_jwt_payload`;
* UTF-8 byte encoding/decoding, used between base64 bytes and JSON text;
* the JWT payload decoder `_decode_jwt_payload` and subject extraction
  `_get_sub_from_jwt`;
* the MCP gateway call `_call_mcp_gateway` of both agent variants, as a
  classification of HTTP outcomes;
* the environment-driven configuration (`_validate_required_environment_variables`,
  `M2MAuthConfig`, `_get_gateway_endpoint`, `_get_memory_id`,
  `_validate_memory_config`), instrumented with a log of environment reads;
* the streaming event relay (`send_event`, `_extract_health_coach_events`,
  `invoke_health_coach`) as a function from the agent's raw event stream to
  the sequence of queue items it emits;
* the entrypoint orchestrator `invoke` as a function from an inbound payload
  to its emitted events and side-effect counts, parameterized by the
  behaviour of the post-validation agent phase.

Theorems at the end settle the specification claims against these
definitions.
-/

namespace HealthCoachAI

/-- JSON values as handled by `json.loads` / `json.dumps`.  Numbers are
modelled as integers (no value in this layer carries a fractional number).
Objects are association lists in document order. -/
inductive JsonValue where
  | null : JsonValue
  | bool (b : Bool) : JsonValue
  | num (n : Int) : JsonValue
  | str (s : String) : JsonValue
  | arr (elems : List JsonValue) : JsonValue
  | obj (members : List (String × JsonValue)) : JsonValue
deriving Inhabited

/-- Key lookup in a JSON object's member list: the Python `dict` access
`d.get(k)` (first binding wins; member lists built by the code have distinct
keys). -/
def jlookup (k : String) : List (String × JsonValue) → Option JsonValue
  | [] => none
  | (k', v) :: rest => if k' = k then some v else jlookup k rest

/-- Python truthiness of a JSON value: `None`, `False`, `0`, `""`, `[]` and
`\x7b\x7d` are falsy. -/
def jsonFalsy : JsonValue → Bool
  | .null => true
  | .bool b => !b
  | .num n => n = 0
  | .str s => s = ""
  | .arr l => l.isEmpty
  | .obj m => m.isEmpty

/-! ## Character class helpers (all tests on code points) -/

/-- JSON whitespace: space, tab, line feed, carriage return. -/
def isWsChar (c : Char) : Bool :=
  c.toNat = 32 || c.toNat = 9 || c.toNat = 10 || c.toNat = 13

/-- ASCII decimal digit. -/
def isDigitChar (c : Char) : Bool :=
  48 ≤ c.toNat && c.toNat ≤ 57

/-- Lower-case hex digit for `n < 16` (used by the serializer's `\u00XX`
escapes). -/
def hexDigitChar (n : Nat) : Char :=
  if n < 10 then Char.ofNat (48 + n) else Char.ofNat (87 + n)

/-- Hex digit value of a character, accepting both cases. -/
def hexVal (c : Char) : Option Nat :=
  if 48 ≤ c.toNat ∧ c.toNat ≤ 57 then some (c.toNat - 48)
  else if 97 ≤ c.toNat ∧ c.toNat ≤ 102 then some (c.toNat - 87)
  else if 65 ≤ c.toNat ∧ c.toNat ≤ 70 then some (c.toNat - 55)
  else none

/-- Decimal digit character of `n < 10`. -/
def digitChar (n : Nat) : Char := Char.ofNat (48 + n)

/-- Decimal digits, fuel-bounded so that the definition is structurally
recursive (and hence computable by kernel reduction). -/
def natDigitsF : Nat → Nat → List Char
  | 0, _ => []
  | f + 1, n =>
    if n < 10 then [digitChar n]
    else natDigitsF f (n / 10) ++ [digitChar (n % 10)]

/-- Decimal digits of a natural number, most significant first. -/
def natDigits (n : Nat) : List Char := natDigitsF (n + 1) n

/-- Numeric value of a digit string (the core of `int` parsing). -/
def digitsToNat (l : List Char) : Nat :=
  l.foldl (fun a c => a * 10 + (c.toNat - 48)) 0

/-! ## JSON serialization (the synthetic-token construction side)

`serJson` is a plain JSON writer: strings are quoted with `"`, `\` and
control characters escaped (`\u00XX` form), all other characters emitted
raw; no insignificant whitespace. -/

/-- Escape one character of a JSON string literal. -/
def escapeChar (c : Char) : List Char :=
  if c.toNat = 34 then ['\\', '"']
  else if c.toNat = 92 then ['\\', '\\']
  else if c.toNat < 32 then
    ['\\', 'u', '0', '0', hexDigitChar (c.toNat / 16), hexDigitChar (c.toNat % 16)]
  else [c]

/-- Escape a whole string body. -/
def escapeList : List Char → List Char
  | [] => []
  | c :: rest => escapeChar c ++ escapeList rest

/-- Serialize a JSON string literal, quotes included. -/
def serString (s : List Char) : List Char :=
  '"' :: escapeList s ++ ['"']

/-- Serialize a JSON number (integer). -/
def serNum (i : Int) : List Char :=
  if i < 0 then '-' :: natDigits i.natAbs else natDigits i.natAbs

mutual

/-- Serialize a JSON value (compact, no whitespace). -/
def serJson : JsonValue → List Char
  | .null => ['n', 'u', 'l', 'l']
  | .bool b => if b then ['t', 'r', 'u', 'e'] else ['f', 'a', 'l', 's', 'e']
  | .num i => serNum i
  | .str s => serString s.data
  | .arr [] => ['[', ']']
  | .arr (v :: vs) => '[' :: (serElems (v :: vs) ++ [']'])
  | .obj [] => ['{', '}']
  | .obj (m :: ms) => '{' :: (serMembers (m :: ms) ++ ['}'])

/-- Serialize the elements of a nonempty array, comma separated. -/
def serElems : List JsonValue → List Char
  | [] => []
  | [v] => serJson v
  | v :: vs => serJson v ++ ',' :: serElems vs

/-- Serialize the members of a nonempty object, comma separated. -/
def serMembers : List (String × JsonValue) → List Char
  | [] => []
  | [(k, v)] => serString k.data ++ ':' :: serJson v
  | (k, v) :: ms => serString k.data ++ ':' :: serJson v ++ ',' :: serMembers ms

end

/-! ## Sizes for parser fuel accounting -/

mutual

/-- Structural size of a JSON value (lower bound for parser fuel). -/
def sizeV : JsonValue → Nat
  | .null => 1
  | .bool _ => 1
  | .num _ => 1
  | .str _ => 1
  | .arr vs => 1 + sizeElems vs
  | .obj ms => 1 + sizeMembers ms

/-- Structural size of an array's element list. -/
def sizeElems : List JsonValue → Nat
  | [] => 0
  | v :: vs => 1 + sizeV v + sizeElems vs

/-- Structural size of an object's member list. -/
def sizeMembers : List (String × JsonValue) → Nat
  | [] => 0
  | (_, v) :: ms => 1 + sizeV v + sizeMembers ms

end

/-! ## JSON parsing (model of `json.loads`)

A fuel-based recursive-descent parser over character lists.  Fuel bounds
the nesting of `parseValue` calls; `parseJson` supplies fuel exceeding the
input length, which suffices for every parseable document. -/

/-- Skip JSON whitespace. -/
def dropWs (l : List Char) : List Char := l.dropWhile isWsChar

/-- Prefix a parsed-string result with one character. -/
def consStr (c : Char) : Option (List Char × List Char) → Option (List Char × List Char)
  | some (s, rest) => some (c :: s, rest)
  | none => none

/-- Value of an escape shorthand character (after a backslash). -/
def unescapeChar (e : Char) : Option Char :=
  if e.toNat = 34 then some '"'
  else if e.toNat = 92 then some '\\'
  else if e.toNat = 47 then some '/'
  else if e.toNat = 98 then some (Char.ofNat 8)
  else if e.toNat = 102 then some (Char.ofNat 12)
  else if e.toNat = 110 then some (Char.ofNat 10)
  else if e.toNat = 114 then some (Char.ofNat 13)
  else if e.toNat = 116 then some (Char.ofNat 9)
  else none

/-- Value of four hex digits. -/
def hex4 (h1 h2 h3 h4 : Char) : Option Nat := do
  let a ← hexVal h1
  let b ← hexVal h2
  let c ← hexVal h3
  let d ← hexVal h4
  some (a * 4096 + b * 256 + c * 16 + d)

/-- Decode one escape sequence after a backslash: the decoded character and
the remaining input.  `\uXXXX` escapes are decoded, with surrogate pairs
combined as `json.loads` does. -/
def escLookahead : List Char → Option (Char × List Char)
  | 'u' :: h1 :: h2 :: h3 :: h4 :: r =>
    match hex4 h1 h2 h3 h4 with
    | none => none
    | some n =>
      if n < 0xD800 then some (Char.ofNat n, r)
      else if n < 0xDC00 then
        match r with
        | '\\' :: 'u' :: g1 :: g2 :: g3 :: g4 :: r2 =>
          match hex4 g1 g2 g3 g4 with
          | none => none
          | some m =>
            if 0xDC00 ≤ m ∧ m < 0xE000 then
              some (Char.ofNat (0x10000 + (n - 0xD800) * 0x400 + (m - 0xDC00)), r2)
            else none
        | _ => none
      else if n < 0xE000 then none
      else some (Char.ofNat n, r)
  | e :: r =>
    match unescapeChar e with
    | some c => some (c, r)
    | none => none
  | [] => none

/-- Parse the body of a JSON string after the opening quote (fuel-bounded;
every step consumes at least one character, so fuel exceeding the input
length suffices).  Returns the decoded characters and the input after the
closing quote; raw control characters are rejected (`strict` mode). -/
def parseStringBodyF : Nat → List Char → Option (List Char × List Char)
  | 0, _ => none
  | f + 1, chars =>
    match chars with
    | [] => none
    | c :: rest =>
      if c.toNat = 34 then some ([], rest)
      else if c.toNat = 92 then
        match escLookahead rest with
        | some (c2, r) => consStr c2 (parseStringBodyF f r)
        | none => none
      else if c.toNat < 32 then none
      else consStr c (parseStringBodyF f rest)

/-- Parse a JSON string body with sufficient fuel. -/
def parseStringBody (l : List Char) : Option (List Char × List Char) :=
  parseStringBodyF (l.length + 1) l

/-- Parse a nonempty run of decimal digits into a natural number. -/
def parseDigits (l : List Char) : Option (Nat × List Char) :=
  let ds := l.takeWhile isDigitChar
  if ds.isEmpty then none
  else some (digitsToNat ds, l.dropWhile isDigitChar)

/-- Match an expected literal tail (character by character). -/
def matchLit : List Char → List Char → Option (List Char)
  | [], l => some l
  | _ :: _, [] => none
  | c :: cs, d :: l => if d.toNat = c.toNat then matchLit cs l else none

mutual

/-- Parse one JSON value (fuel-bounded). -/
def parseValue : Nat → List Char → Option (JsonValue × List Char)
  | 0, _ => none
  | f + 1, chars =>
    match dropWs chars with
    | [] => none
    | c :: rest =>
      if c.toNat = 110 then
        match matchLit ['u', 'l', 'l'] rest with
        | some r => some (.null, r)
        | none => none
      else if c.toNat = 116 then
        match matchLit ['r', 'u', 'e'] rest with
        | some r => some (.bool true, r)
        | none => none
      else if c.toNat = 102 then
        match matchLit ['a', 'l', 's', 'e'] rest with
        | some r => some (.bool false, r)
        | none => none
      else if c.toNat = 34 then
        match parseStringBody rest with
        | some (s, r) => some (.str (String.mk s), r)
        | none => none
      else if c.toNat = 91 then
        match dropWs rest with
        | [] => none
        | c2 :: r2 =>
          if c2.toNat = 93 then some (.arr [], r2)
          else
            match parseElems f (c2 :: r2) with
            | some (es, r) => some (.arr es, r)
            | none => none
      else if c.toNat = 123 then
        match dropWs rest with
        | [] => none
        | c2 :: r2 =>
          if c2.toNat = 125 then some (.obj [], r2)
          else
            match parseMembers f (c2 :: r2) with
            | some (ms, r) => some (.obj ms, r)
            | none => none
      else if c.toNat = 45 then
        match parseDigits rest with
        | some (n, r) => some (.num (-(n : Int)), r)
        | none => none
      else if isDigitChar c then
        match parseDigits (c :: rest) with
        | some (n, r) => some (.num (n : Int), r)
        | none => none
      else none

/-- Parse the elements of a nonempty array, consuming the closing bracket. -/
def parseElems : Nat → List Char → Option (List JsonValue × List Char)
  | 0, _ => none
  | f + 1, chars =>
    match parseValue f chars with
    | none => none
    | some (v, r1) =>
      match dropWs r1 with
      | [] => none
      | c :: r2 =>
        if c.toNat = 44 then
          match parseElems f r2 with
          | some (vs, r3) => some (v :: vs, r3)
          | none => none
        else if c.toNat = 93 then some ([v], r2)
        else none

/-- Parse the members of a nonempty object, consuming the closing brace. -/
def parseMembers : Nat → List Char → Option (List (String × JsonValue) × List Char)
  | 0, _ => none
  | f + 1, chars =>
    match dropWs chars with
    | [] => none
    | c :: rest =>
      if c.toNat = 34 then
        match parseStringBody rest with
        | none => none
        | some (k, r1) =>
          match dropWs r1 with
          | [] => none
          | c2 :: r2 =>
            if c2.toNat = 58 then
              match parseValue f r2 with
              | none => none
              | some (v, r3) =>
                match dropWs r3 with
                | [] => none
                | c3 :: r4 =>
                  if c3.toNat = 44 then
                    match parseMembers f r4 with
                    | some (ms, r5) => some ((String.mk k, v) :: ms, r5)
                    | none => none
                  else if c3.toNat = 125 then some ([(String.mk k, v)], r4)
                  else none
            else none
      else none

end

/-- Parse a complete JSON document (model of `json.loads`): one value,
possibly surrounded by whitespace, and nothing else. -/
def parseJson (s : String) : Option JsonValue :=
  match parseValue (s.length + 1) s.data with
  | some (v, rest) => if dropWs rest = [] then some v else none
  | none => none

/-! ## Base64url (model of `base64.urlsafe_b64decode` and the unpadded
encoder used to construct synthetic tokens) -/

/-- Character of a 6-bit group in the urlsafe base64 alphabet. -/
def b64Char (n : Nat) : Char :=
  if n < 26 then Char.ofNat (65 + n)
  else if n < 52 then Char.ofNat (97 + (n - 26))
  else if n < 62 then Char.ofNat (48 + (n - 52))
  else if n = 62 then '-'
  else '_'

/-- 6-bit value of an alphabet character.  As `urlsafe_b64decode` translates
`-`/`_` onto `+`/`/` and then decodes with the standard alphabet, both the
urlsafe and the standard pair are accepted. -/
def b64Val (c : Char) : Option Nat :=
  if 65 ≤ c.toNat ∧ c.toNat ≤ 90 then some (c.toNat - 65)
  else if 97 ≤ c.toNat ∧ c.toNat ≤ 122 then some (c.toNat - 97 + 26)
  else if 48 ≤ c.toNat ∧ c.toNat ≤ 57 then some (c.toNat - 48 + 52)
  else if c.toNat = 45 ∨ c.toNat = 43 then some 62
  else if c.toNat = 95 ∨ c.toNat = 47 then some 63
  else none

/-- Unpadded base64url encoding of a byte list. -/
def b64Encode : List Nat → List Char
  | [] => []
  | [b1] => [b64Char (b1 / 4), b64Char (b1 % 4 * 16)]
  | [b1, b2] => [b64Char (b1 / 4), b64Char (b1 % 4 * 16 + b2 / 16), b64Char (b2 % 16 * 4)]
  | b1 :: b2 :: b3 :: rest =>
    b64Char (b1 / 4) :: b64Char (b1 % 4 * 16 + b2 / 16) ::
      b64Char (b2 % 16 * 4 + b3 / 64) :: b64Char (b3 % 64) :: b64Encode rest

/-- The `'='`-padding adjustment `_decode_jwt_payload` performs before
decoding: `padding = 4 - len(payload) % 4; if padding != 4: payload += '=' * padding`. -/
def padB64 (l : List Char) : List Char :=
  let padding := 4 - l.length % 4
  if padding ≠ 4 then l ++ List.replicate padding '=' else l

/-- Decode a base64 quad stream (`'='` only as padding of the final quad). -/
def b64DecodeQuads : List Char → Option (List Nat)
  | [] => some []
  | c1 :: c2 :: c3 :: c4 :: rest =>
    if rest = [] ∧ c3.toNat = 61 ∧ c4.toNat = 61 then do
      let a ← b64Val c1
      let b ← b64Val c2
      some [a * 4 + b / 16]
    else if rest = [] ∧ c4.toNat = 61 then do
      let a ← b64Val c1
      let b ← b64Val c2
      let c ← b64Val c3
      some [a * 4 + b / 16, b % 16 * 16 + c / 4]
    else do
      let a ← b64Val c1
      let b ← b64Val c2
      let c ← b64Val c3
      let d ← b64Val c4
      let tail ← b64DecodeQuads rest
      some ((a * 4 + b / 16) :: (b % 16 * 16 + c / 4) :: (c % 4 * 64 + d) :: tail)
  | _ => none

/-- Model of `base64.urlsafe_b64decode`: characters outside the alphabet and
`'='` are discarded (default non-validating mode), then the stream is decoded
in quads and must be a multiple of four long. -/
def urlsafeB64Decode (l : List Char) : Option (List Nat) :=
  b64DecodeQuads (l.filter (fun c => (b64Val c).isSome || c.toNat = 61))

/-! ## UTF-8 (model of `bytes.decode('utf-8')` / `str.encode()`) -/

/-- UTF-8 bytes of one character. -/
def utf8EncodeChar (c : Char) : List Nat :=
  let n := c.toNat
  if n < 0x80 then [n]
  else if n < 0x800 then [0xC0 + n / 64, 0x80 + n % 64]
  else if n < 0x10000 then [0xE0 + n / 4096, 0x80 + n / 64 % 64, 0x80 + n % 64]
  else [0xF0 + n / 262144, 0x80 + n / 4096 % 64, 0x80 + n / 64 % 64, 0x80 + n % 64]

/-- UTF-8 bytes of a character list. -/
def utf8Encode : List Char → List Nat
  | [] => []
  | c :: rest => utf8EncodeChar c ++ utf8Encode rest

/-- Is a byte a UTF-8 continuation byte? -/
abbrev isCont (b : Nat) : Prop := 0x80 ≤ b ∧ b < 0xC0

/-- Complete a 2-byte UTF-8 sequence after its lead byte. -/
def utf8Lead2 (b : Nat) : List Nat → Option (Nat × List Nat)
  | b2 :: r => if isCont b2 then some ((b - 0xC0) * 64 + (b2 - 0x80), r) else none
  | [] => none

/-- Complete a 3-byte UTF-8 sequence after its lead byte (rejecting overlong
forms and surrogates). -/
def utf8Lead3 (b : Nat) : List Nat → Option (Nat × List Nat)
  | b2 :: b3 :: r =>
    if isCont b2 ∧ isCont b3 then
      let n := (b - 0xE0) * 4096 + (b2 - 0x80) * 64 + (b3 - 0x80)
      if n < 0x800 then none
      else if 0xD800 ≤ n ∧ n < 0xE000 then none
      else some (n, r)
    else none
  | _ => none

/-- Complete a 4-byte UTF-8 sequence after its lead byte (rejecting overlong
forms and out-of-range code points). -/
def utf8Lead4 (b : Nat) : List Nat → Option (Nat × List Nat)
  | b2 :: b3 :: b4 :: r =>
    if isCont b2 ∧ isCont b3 ∧ isCont b4 then
      let n := (b - 0xF0) * 262144 + (b2 - 0x80) * 4096 + (b3 - 0x80) * 64 + (b4 - 0x80)
      if n < 0x10000 ∨ 0x110000 ≤ n then none
      else some (n, r)
    else none
  | _ => none

/-- Strict UTF-8 decoding (fuel-bounded; each step consumes at least one
byte): rejects bad leads, bad continuations, overlong forms, surrogates and
out-of-range code points. -/
def utf8DecodeF : Nat → List Nat → Option (List Char)
  | 0, _ => none
  | _ + 1, [] => some []
  | f + 1, b :: rest =>
    if b < 0x80 then (utf8DecodeF f rest).map (fun l => Char.ofNat b :: l)
    else if b < 0xC2 then none
    else if b < 0xE0 then
      match utf8Lead2 b rest with
      | some (n, r) => (utf8DecodeF f r).map (fun l => Char.ofNat n :: l)
      | none => none
    else if b < 0xF0 then
      match utf8Lead3 b rest with
      | some (n, r) => (utf8DecodeF f r).map (fun l => Char.ofNat n :: l)
      | none => none
    else if b < 0xF5 then
      match utf8Lead4 b rest with
      | some (n, r) => (utf8DecodeF f r).map (fun l => Char.ofNat n :: l)
      | none => none
    else none

/-- Strict UTF-8 decoding of a byte list (model of `bytes.decode('utf-8')`). -/
def utf8Decode (l : List Nat) : Option (List Char) := utf8DecodeF (l.length + 1) l

/-! ## The Token Inspector: `_decode_jwt_payload` and `_get_sub_from_jwt`

Identical in both agent modules (`healthmate_coach_ai/agent.py` lines
293-328 and `health_coach_ai/agent.py` lines 95-119). -/

/-- Model of Python's `str.split('.')`. -/
def splitDot : List Char → List (List Char)
  | [] => [[]]
  | c :: rest =>
    if c.toNat = 46 then [] :: splitDot rest
    else
      match splitDot rest with
      | [] => [[c]]
      | seg :: segs => (c :: seg) :: segs

/-- The body of `_decode_jwt_payload`, parameterized by the base64 decoder so
that independence from it (for malformed segment counts) is expressible:
split on `'.'`, require exactly 3 segments, pad the middle segment with `'='`
to a multiple of four, base64url-decode, UTF-8-decode, JSON-parse.  `none`
models any raised exception. -/
def decodeJwtPayloadWith (b64dec : List Char → Option (List Nat)) (jwt : String) :
    Option JsonValue :=
  match splitDot jwt.data with
  | [_, payload, _] => do
    let bytes ← b64dec (padB64 payload)
    let chars ← utf8Decode bytes
    parseJson (String.mk chars)
  | _ => none

/-- The fallible pipeline inside `_decode_jwt_payload`'s `try` block. -/
def decodeJwtPayloadCore : String → Option JsonValue :=
  decodeJwtPayloadWith urlsafeB64Decode

/-- `_decode_jwt_payload`: the catch-all `except` returns `\x7b\x7d` on any
failure. -/
def decode_jwt_payload (jwt : String) : JsonValue :=
  (decodeJwtPayloadCore jwt).getD (.obj [])

/-- `_get_sub_from_jwt` (with the token taken from the request payload, as
`invoke` arranges via the `_current_jwt_token` global): decode the payload;
a falsy payload returns `None`; `payload.get('sub')` on a non-dict raises
(`AttributeError`, caught, `None`); a missing or falsy `sub` raises
(`ValueError`, caught, `None`); otherwise the subject is returned. -/
def get_sub_from_jwt (jwt : String) : Option JsonValue :=
  let payload := decode_jwt_payload jwt
  if jsonFalsy payload then none
  else
    match payload with
    | .obj members =>
      match jlookup "sub" members with
      | some sub => if jsonFalsy sub then none else some sub
      | none => none
    | _ => none

/-! ## Basic lemmas: characters and decimal digits -/

theorem toNat_charOfNat {n : Nat} (h : n.isValidChar) : (Char.ofNat n).toNat = n := by
  unfold Char.ofNat
  rw [dif_pos h]
  rfl

theorem char_valid_nat (c : Char) : Nat.isValidChar c.toNat := c.valid

theorem toNat_digitChar {d : Nat} (h : d < 10) : (digitChar d).toNat = 48 + d := by
  apply toNat_charOfNat
  left
  omega

theorem natDigitsF_congr (f : Nat) : ∀ g n, n < f → n < g → natDigitsF f n = natDigitsF g n := by
  induction f with
  | zero => intro g n hf _; omega
  | succ f ih =>
    intro g n hf hg
    match g, hg with
    | g + 1, _ =>
      show natDigitsF (f + 1) n = natDigitsF (g + 1) n
      simp only [natDigitsF]
      by_cases h10 : n < 10
      · simp [h10]
      · simp only [if_neg h10]
        rw [ih g (n / 10) (by omega) (by omega)]

theorem natDigits_eq (n : Nat) :
    natDigits n = if n < 10 then [digitChar n] else natDigits (n / 10) ++ [digitChar (n % 10)] := by
  show natDigitsF (n + 1) n = _
  simp only [natDigitsF]
  by_cases h10 : n < 10
  · simp [h10]
  · simp only [if_neg h10]
    rw [natDigitsF_congr n (n / 10 + 1) (n / 10) (by omega) (by omega)]
    rfl

theorem natDigits_all_digit (n : Nat) : ∀ c ∈ natDigits n, isDigitChar c = true := by
  induction n using Nat.strong_induction_on with
  | _ n ih =>
    rw [natDigits_eq]
    by_cases h10 : n < 10
    · simp only [if_pos h10, List.mem_singleton]
      rintro c rfl
      simp [isDigitChar, toNat_digitChar h10]
      omega
    · simp only [if_neg h10, List.mem_append, List.mem_singleton]
      rintro c (hc | rfl)
      · exact ih (n / 10) (by omega) c hc
      · simp [isDigitChar, toNat_digitChar (Nat.mod_lt n (by omega))]
        omega

theorem natDigits_ne_nil (n : Nat) : natDigits n ≠ [] := by
  rw [natDigits_eq]
  by_cases h10 : n < 10 <;> simp [h10]

theorem digitsToNat_append_one (l : List Char) (c : Char) :
    digitsToNat (l ++ [c]) = digitsToNat l * 10 + (c.toNat - 48) := by
  simp [digitsToNat, List.foldl_append]

theorem digitsToNat_natDigits (n : Nat) : digitsToNat (natDigits n) = n := by
  induction n using Nat.strong_induction_on with
  | _ n ih =>
    rw [natDigits_eq]
    by_cases h10 : n < 10
    · simp [if_pos h10, digitsToNat, toNat_digitChar h10]
    · rw [if_neg h10, digitsToNat_append_one, ih (n / 10) (by omega),
        toNat_digitChar (Nat.mod_lt n (by omega))]
      omega

/-- Bool-valued guard: the continuation does not start with a digit (so a
digit run before it is maximal). -/
def noDigitHead : List Char → Bool
  | [] => true
  | c :: _ => !(isDigitChar c)

theorem split_digit_run (l : List Char) (rest : List Char)
    (hl : ∀ c ∈ l, isDigitChar c = true) (hr : noDigitHead rest = true) :
    (l ++ rest).takeWhile isDigitChar = l ∧ (l ++ rest).dropWhile isDigitChar = rest := by
  induction l with
  | nil =>
    simp only [List.nil_append]
    cases rest with
    | nil => simp
    | cons c r =>
      simp only [noDigitHead, Bool.not_eq_true'] at hr
      simp [List.takeWhile_cons, List.dropWhile_cons, hr]
  | cons c l ih =>
    have hc : isDigitChar c = true := hl c (by simp)
    have ih' := ih (fun d hd => hl d (by simp [hd]))
    simp [List.takeWhile_cons, List.dropWhile_cons, hc, ih'.1, ih'.2]

theorem parseDigits_complete (n : Nat) (rest : List Char) (hr : noDigitHead rest = true) :
    parseDigits (natDigits n ++ rest) = some (n, rest) := by
  have h := split_digit_run (natDigits n) rest (natDigits_all_digit n) hr
  have hne : (natDigits n).isEmpty = false := by
    cases h : natDigits n with
    | nil => exact absurd h (natDigits_ne_nil n)
    | cons c l => simp
  simp [parseDigits, h.1, h.2, hne, digitsToNat_natDigits]

/-! ## String-literal parsing completeness -/

theorem char_toNat_inj {a b : Char} (h : a.toNat = b.toNat) : a = b := by
  have ha := Char.ofNat_toNat a
  rw [← ha, h, Char.ofNat_toNat]

theorem hexVal_hexDigitChar {d : Nat} (h : d < 16) : hexVal (hexDigitChar d) = some d := by
  unfold hexDigitChar
  by_cases h10 : d < 10
  · have ht : (Char.ofNat (48 + d)).toNat = 48 + d := toNat_charOfNat (Or.inl (by omega))
    rw [if_pos h10]
    unfold hexVal
    rw [ht, if_pos (by omega)]
    congr 1
    omega
  · have ht : (Char.ofNat (87 + d)).toNat = 87 + d := toNat_charOfNat (Or.inl (by omega))
    rw [if_neg h10]
    unfold hexVal
    rw [ht, if_neg (by omega), if_pos (by omega)]
    congr 1
    omega

theorem hex4_00 (n : Nat) (hn : n < 256) :
    hex4 '0' '0' (hexDigitChar (n / 16)) (hexDigitChar (n % 16)) = some n := by
  have h0 : hexVal '0' = some 0 := rfl
  simp [hex4, h0, hexVal_hexDigitChar (show n / 16 < 16 by omega),
    hexVal_hexDigitChar (show n % 16 < 16 by omega)]
  omega

theorem escLookahead_u00 (n : Nat) (hn : n < 256) (r : List Char) :
    escLookahead ('u' :: '0' :: '0' :: hexDigitChar (n / 16) :: hexDigitChar (n % 16) :: r) =
      some (Char.ofNat n, r) := by
  simp only [escLookahead, hex4_00 n hn]
  rw [if_pos (by omega)]


theorem escapeChar_length_pos (c : Char) : 1 ≤ (escapeChar c).length := by
  unfold escapeChar
  split
  · simp
  · split
    · simp
    · split <;> simp

theorem escapeList_length_ge (s : List Char) : s.length ≤ (escapeList s).length := by
  induction s with
  | nil => simp [escapeList]
  | cons c s ih =>
    have := escapeChar_length_pos c
    simp only [escapeList, List.length_append, List.length_cons]
    omega

theorem parseStringBodyF_complete :
    ∀ (f : Nat) (s rest : List Char), s.length < f →
      parseStringBodyF f (escapeList s ++ '"' :: rest) = some (s, rest) := by
  intro f
  induction f with
  | zero => intro s rest h; omega
  | succ f ih =>
    intro s rest _h
    cases s with
    | nil => simp [escapeList, parseStringBodyF]
    | cons c s =>
      have hf : s.length < f := by simp at _h; omega
      by_cases h34 : c.toNat = 34
      · have hc : c = '"' := char_toNat_inj (show c.toNat = Char.toNat '"' by rw [h34]; rfl)
        subst hc
        simp only [escapeList, List.cons_append, List.append_assoc]
        show parseStringBodyF (f + 1) ('\\' :: '"' :: (escapeList s ++ '"' :: rest)) = _
        simp [parseStringBodyF, escLookahead, unescapeChar, consStr, ih s rest hf]
      · by_cases h92 : c.toNat = 92
        · have hc : c = '\\' := char_toNat_inj (show c.toNat = Char.toNat '\\' by rw [h92]; rfl)
          subst hc
          simp only [escapeList, List.cons_append, List.append_assoc]
          show parseStringBodyF (f + 1) ('\\' :: '\\' :: (escapeList s ++ '"' :: rest)) = _
          simp [parseStringBodyF, escLookahead, unescapeChar, consStr, ih s rest hf]
        · by_cases hctl : c.toNat < 32
          · have he : escapeChar c =
                ['\\', 'u', '0', '0', hexDigitChar (c.toNat / 16), hexDigitChar (c.toNat % 16)] := by
              unfold escapeChar
              rw [if_neg h34, if_neg h92, if_pos hctl]
            simp only [escapeList, he, List.cons_append, List.append_assoc, List.nil_append]
            rw [show parseStringBodyF (f + 1)
                ('\\' :: 'u' :: '0' :: '0' :: hexDigitChar (c.toNat / 16) ::
                  hexDigitChar (c.toNat % 16) :: (escapeList s ++ '"' :: rest)) =
                (match escLookahead ('u' :: '0' :: '0' :: hexDigitChar (c.toNat / 16) ::
                    hexDigitChar (c.toNat % 16) :: (escapeList s ++ '"' :: rest)) with
                 | some (c2, r) => consStr c2 (parseStringBodyF f r)
                 | none => none) from by simp [parseStringBodyF]]
            rw [escLookahead_u00 c.toNat (by omega)]
            simp [consStr, ih s rest hf]
          · have he : escapeChar c = [c] := by
              unfold escapeChar
              rw [if_neg h34, if_neg h92, if_neg hctl]
            simp only [escapeList, he, List.cons_append, List.append_assoc, List.nil_append]
            show parseStringBodyF (f + 1) (c :: (escapeList s ++ '"' :: rest)) = _
            simp only [parseStringBodyF]
            rw [if_neg h34, if_neg h92, if_neg (by omega : ¬ c.toNat < 32)]
            simp [consStr, ih s rest hf]

theorem parseStringBody_complete (s rest : List Char) :
    parseStringBody (escapeList s ++ '"' :: rest) = some (s, rest) := by
  have h := escapeList_length_ge s
  apply parseStringBodyF_complete
  simp only [List.length_append, List.length_cons]
  omega



/-! ## Parser completeness on serializer output -/

theorem dropWs_cons_of {c : Char} (h : isWsChar c = false) (l : List Char) :
    dropWs (c :: l) = c :: l := by
  simp [dropWs, List.dropWhile_cons, h]

theorem sizeV_pos (v : JsonValue) : 1 ≤ sizeV v := by
  cases v <;> simp [sizeV]

theorem sizeElems_pos {vs : List JsonValue} (h : vs ≠ []) : 1 ≤ sizeElems vs := by
  cases vs with
  | nil => exact absurd rfl h
  | cons v vs => simp [sizeElems]; omega

theorem sizeMembers_pos {ms : List (String × JsonValue)} (h : ms ≠ []) : 1 ≤ sizeMembers ms := by
  cases ms with
  | nil => exact absurd rfl h
  | cons m ms => obtain ⟨k, v⟩ := m; simp [sizeMembers]; omega

theorem natDigits_head (n : Nat) :
    ∃ d t, natDigits n = d :: t ∧ isDigitChar d = true := by
  cases h : natDigits n with
  | nil => exact absurd h (natDigits_ne_nil n)
  | cons d t => exact ⟨d, t, rfl, natDigits_all_digit n d (by rw [h]; simp)⟩

/-- Every serialized value starts with a recognizable value-start character. -/
theorem serJson_head (v : JsonValue) : ∃ c t, serJson v = c :: t ∧
    (c.toNat = 110 ∨ c.toNat = 116 ∨ c.toNat = 102 ∨ c.toNat = 34 ∨ c.toNat = 91 ∨
     c.toNat = 123 ∨ c.toNat = 45 ∨ (48 ≤ c.toNat ∧ c.toNat ≤ 57)) := by
  cases v with
  | null => exact ⟨'n', _, rfl, Or.inl rfl⟩
  | bool b =>
    cases b
    · exact ⟨'f', ['a', 'l', 's', 'e'], rfl, by decide⟩
    · exact ⟨'t', ['r', 'u', 'e'], rfl, by decide⟩
  | num i =>
    by_cases h : i < 0
    · have hd2 : serJson (.num i) = '-' :: natDigits i.natAbs := by simp [serJson, serNum, h]
      exact ⟨'-', natDigits i.natAbs, hd2, by decide⟩
    · obtain ⟨d, t, hd, hdig⟩ := natDigits_head i.natAbs
      refine ⟨d, t, ?_, ?_⟩
      · simp [serJson, serNum, h, hd]
      · simp [isDigitChar, Bool.and_eq_true, decide_eq_true_eq] at hdig
        tauto
  | str s => exact ⟨'"', escapeList s.data ++ ['"'], by simp [serJson, serString], by decide⟩
  | arr vs =>
    cases vs with
    | nil => exact ⟨'[', [']'], by simp [serJson], by decide⟩
    | cons v vs => exact ⟨'[', serElems (v :: vs) ++ [']'], by simp [serJson], by decide⟩
  | obj ms =>
    cases ms with
    | nil => exact ⟨'{', ['}'], by simp [serJson], by decide⟩
    | cons m ms => exact ⟨'{', serMembers (m :: ms) ++ ['}'], by simp [serJson], by decide⟩

/-- The tail that follows the first element inside a serialized array. -/
def serElemsTail : List JsonValue → List Char
  | [] => []
  | v :: vs => ',' :: serElems (v :: vs)

theorem serElems_cons (v : JsonValue) (vs : List JsonValue) :
    serElems (v :: vs) = serJson v ++ serElemsTail vs := by
  cases vs with
  | nil => simp [serElems, serElemsTail]
  | cons v2 vs => simp [serElems, serElemsTail]

/-- The tail that follows the first member inside a serialized object. -/
def serMembersTail : List (String × JsonValue) → List Char
  | [] => []
  | m :: ms => ',' :: serMembers (m :: ms)

theorem serMembers_cons (k : String) (v : JsonValue) (ms : List (String × JsonValue)) :
    serMembers ((k, v) :: ms) = serString k.data ++ ':' :: serJson v ++ serMembersTail ms := by
  cases ms with
  | nil => simp [serMembers, serMembersTail]
  | cons m2 ms => simp [serMembers, serMembersTail]

/-! Single-step unfolding lemmas for `parseValue` on inputs with a concrete
head character. -/

theorem parseValue_null_step (f : Nat) (rest : List Char) :
    parseValue (f + 1) ('n' :: 'u' :: 'l' :: 'l' :: rest) = some (.null, rest) := rfl

theorem parseValue_true_step (f : Nat) (rest : List Char) :
    parseValue (f + 1) ('t' :: 'r' :: 'u' :: 'e' :: rest) = some (.bool true, rest) := rfl

theorem parseValue_false_step (f : Nat) (rest : List Char) :
    parseValue (f + 1) ('f' :: 'a' :: 'l' :: 's' :: 'e' :: rest) = some (.bool false, rest) := rfl

theorem parseValue_str_step (f : Nat) (tail : List Char) :
    parseValue (f + 1) ('"' :: tail) =
      (match parseStringBody tail with
       | some (s, r) => some (.str (String.mk s), r)
       | none => none) := rfl

theorem parseValue_arr_nil_step (f : Nat) (rest : List Char) :
    parseValue (f + 1) ('[' :: ']' :: rest) = some (.arr [], rest) := rfl

theorem parseValue_obj_nil_step (f : Nat) (rest : List Char) :
    parseValue (f + 1) ('{' :: '}' :: rest) = some (.obj [], rest) := rfl

theorem parseValue_neg_step (f : Nat) (rest : List Char) :
    parseValue (f + 1) ('-' :: rest) =
      (match parseDigits rest with
       | some (n, r) => some (.num (-(n : Int)), r)
       | none => none) := rfl

theorem parseValue_arr_step (f : Nat) (c2 : Char) (r2 : List Char) (h : isWsChar c2 = false) :
    parseValue (f + 1) ('[' :: c2 :: r2) =
      (if c2.toNat = 93 then some (.arr [], r2)
       else
         match parseElems f (c2 :: r2) with
         | some (es, r) => some (.arr es, r)
         | none => none) := by
  simp only [parseValue]
  rw [dropWs_cons_of (by decide)]
  simp only [show ('[' : Char).toNat = 91 from rfl]
  norm_num
  rw [dropWs_cons_of h]

theorem parseValue_obj_step (f : Nat) (c2 : Char) (r2 : List Char) (h : isWsChar c2 = false) :
    parseValue (f + 1) ('{' :: c2 :: r2) =
      (if c2.toNat = 125 then some (.obj [], r2)
       else
         match parseMembers f (c2 :: r2) with
         | some (ms, r) => some (.obj ms, r)
         | none => none) := by
  simp only [parseValue]
  rw [dropWs_cons_of (by decide)]
  simp only [show ('{' : Char).toNat = 123 from rfl]
  norm_num
  rw [dropWs_cons_of h]

theorem parseValue_digit_step (f : Nat) (c : Char) (rest : List Char)
    (h : isDigitChar c = true) :
    parseValue (f + 1) (c :: rest) =
      (match parseDigits (c :: rest) with
       | some (n, r) => some (.num (n : Int), r)
       | none => none) := by
  have hn : 48 ≤ c.toNat ∧ c.toNat ≤ 57 := by
    simpa [isDigitChar, Bool.and_eq_true, decide_eq_true_eq] using h
  have hws : isWsChar c = false := by
    simp [isWsChar, Bool.or_eq_false_iff, decide_eq_false_iff_not]
    omega
  simp only [parseValue]
  rw [dropWs_cons_of hws]
  simp only []
  rw [if_neg (by omega), if_neg (by omega), if_neg (by omega), if_neg (by omega),
    if_neg (by omega), if_neg (by omega), if_neg (by omega), if_pos h]



theorem noDigitHead_serMembersTail (ms : List (String × JsonValue)) (rest : List Char) :
    noDigitHead (serMembersTail ms ++ '}' :: rest) = true := by
  cases ms with
  | nil => rfl
  | cons m ms => rfl

theorem noDigitHead_serElemsTail (vs : List JsonValue) (rest : List Char) :
    noDigitHead (serElemsTail vs ++ ']' :: rest) = true := by
  cases vs with
  | nil => rfl
  | cons v vs => rfl

/-- Completeness of the JSON parser on serializer output: with enough fuel,
parsing a serialized value (followed by any continuation that does not
extend a trailing digit run) yields the value and the continuation. -/
theorem parse_complete (f : Nat) :
    (∀ v rest, sizeV v ≤ f → noDigitHead rest = true →
      parseValue f (serJson v ++ rest) = some (v, rest)) ∧
    (∀ vs rest, vs ≠ [] → sizeElems vs ≤ f →
      parseElems f (serElems vs ++ ']' :: rest) = some (vs, rest)) ∧
    (∀ ms rest, ms ≠ [] → sizeMembers ms ≤ f →
      parseMembers f (serMembers ms ++ '}' :: rest) = some (ms, rest)) := by
  induction f with
  | zero =>
    refine ⟨?_, ?_, ?_⟩
    · intro v _ hsz _
      have := sizeV_pos v
      omega
    · intro vs _ hne hsz
      have := sizeElems_pos hne
      omega
    · intro ms _ hne hsz
      have := sizeMembers_pos hne
      omega
  | succ f ih =>
    obtain ⟨ihV, ihE, ihM⟩ := ih
    refine ⟨?_, ?_, ?_⟩
    · intro v rest hsz hnd
      cases v with
      | null => exact parseValue_null_step f rest
      | bool b =>
        cases b
        · exact parseValue_false_step f rest
        · exact parseValue_true_step f rest
      | num i =>
        by_cases hneg : i < 0
        · have hs : serJson (.num i) ++ rest = '-' :: (natDigits i.natAbs ++ rest) := by
            simp [serJson, serNum, hneg]
          rw [hs, parseValue_neg_step, parseDigits_complete i.natAbs rest hnd]
          simp only []
          have habs : -((i.natAbs : Nat) : Int) = i := by omega
          rw [habs]
        · obtain ⟨d, t, hd, hdig⟩ := natDigits_head i.natAbs
          have hs : serJson (.num i) ++ rest = d :: (t ++ rest) := by
            simp [serJson, serNum, hneg, hd]
          rw [hs, parseValue_digit_step f d (t ++ rest) hdig]
          have hback : d :: (t ++ rest) = natDigits i.natAbs ++ rest := by simp [hd]
          rw [hback, parseDigits_complete i.natAbs rest hnd]
          simp only []
          have habs : ((i.natAbs : Nat) : Int) = i := by omega
          rw [habs]
      | str s =>
        have hs : serJson (.str s) ++ rest = '"' :: (escapeList s.data ++ '"' :: rest) := by
          simp [serJson, serString]
        rw [hs, parseValue_str_step, parseStringBody_complete s.data rest]
      | arr vs =>
        cases vs with
        | nil =>
          have hs : serJson (.arr []) ++ rest = '[' :: ']' :: rest := by simp [serJson]
          rw [hs, parseValue_arr_nil_step]
        | cons v vs =>
          obtain ⟨c, t, hct, hstart⟩ := serJson_head v
          have hws : isWsChar c = false := by
            simp [isWsChar, Bool.or_eq_false_iff, decide_eq_false_iff_not]
            omega
          have hs : serJson (.arr (v :: vs)) ++ rest =
              '[' :: c :: (t ++ (serElemsTail vs ++ ']' :: rest)) := by
            simp [serJson, serElems_cons, hct]
          rw [hs, parseValue_arr_step f c _ hws, if_neg (by omega)]
          have hback : c :: (t ++ (serElemsTail vs ++ ']' :: rest)) =
              serElems (v :: vs) ++ ']' :: rest := by
            simp [serElems_cons, hct]
          rw [hback, ihE (v :: vs) rest (by simp) (by simp [sizeV] at hsz; omega)]
      | obj ms =>
        cases ms with
        | nil =>
          have hs : serJson (.obj []) ++ rest = '{' :: '}' :: rest := by simp [serJson]
          rw [hs, parseValue_obj_nil_step]
        | cons m ms =>
          obtain ⟨k, v⟩ := m
          have hs : serJson (.obj ((k, v) :: ms)) ++ rest =
              '{' :: '"' :: (escapeList k.data ++
                ('"' :: (':' :: (serJson v ++ (serMembersTail ms ++ '}' :: rest))))) := by
            simp [serJson, serMembers_cons, serString]
          rw [hs, parseValue_obj_step f '"' _ (by decide), if_neg (by decide)]
          have hback : ('"' : Char) :: (escapeList k.data ++
                ('"' :: (':' :: (serJson v ++ (serMembersTail ms ++ '}' :: rest))))) =
              serMembers ((k, v) :: ms) ++ '}' :: rest := by
            simp [serMembers_cons, serString]
          rw [hback, ihM ((k, v) :: ms) rest (by simp) (by simp [sizeV] at hsz; omega)]
    · intro vs rest hne hsz
      cases vs with
      | nil => exact absurd rfl hne
      | cons v vs =>
        simp only [parseElems]
        cases vs with
        | nil =>
          have h1 : serElems [v] ++ ']' :: rest = serJson v ++ ']' :: rest := by simp [serElems]
          rw [h1, ihV v (']' :: rest) (by simp [sizeElems] at hsz; omega) (by rfl)]
          simp only []
          rw [dropWs_cons_of (by decide)]
          simp only [show (']' : Char).toNat = 93 from rfl]
          norm_num
        | cons v2 vs2 =>
          have h1 : serElems (v :: v2 :: vs2) ++ ']' :: rest =
              serJson v ++ (',' :: (serElems (v2 :: vs2) ++ ']' :: rest)) := by
            simp [serElems]
          have hv : sizeV v ≤ f := by
            simp [sizeElems] at hsz
            omega
          rw [h1, ihV v _ hv (by rfl)]
          simp only []
          rw [dropWs_cons_of (by decide)]
          simp only [show (',' : Char).toNat = 44 from rfl]
          norm_num
          rw [ihE (v2 :: vs2) rest (by simp)
            (by simp [sizeElems] at hsz ⊢; have := sizeV_pos v; omega)]
    · intro ms rest hne hsz
      cases ms with
      | nil => exact absurd rfl hne
      | cons m ms =>
        obtain ⟨k, v⟩ := m
        simp only [parseMembers]
        have h1 : serMembers ((k, v) :: ms) ++ '}' :: rest =
            '"' :: (escapeList k.data ++
              ('"' :: (':' :: (serJson v ++ (serMembersTail ms ++ '}' :: rest))))) := by
          simp [serMembers_cons, serString]
        rw [h1, dropWs_cons_of (by decide)]
        simp only [show ('"' : Char).toNat = 34 from rfl]
        norm_num
        rw [parseStringBody_complete k.data (':' :: (serJson v ++ (serMembersTail ms ++ '}' :: rest)))]
        simp only []
        rw [dropWs_cons_of (by decide)]
        simp only [show (':' : Char).toNat = 58 from rfl]
        norm_num
        have hv : sizeV v ≤ f := by
          simp [sizeMembers] at hsz
          omega
        rw [ihV v _ hv (noDigitHead_serMembersTail ms rest)]
        simp only []
        cases ms with
        | nil =>
          show (match dropWs (serMembersTail [] ++ '}' :: rest) with
            | [] => none
            | c3 :: r4 =>
              if c3.toNat = 44 then
                match parseMembers f r4 with
                | some (ms, r5) => some ((String.mk k.data, v) :: ms, r5)
                | none => none
              else if c3.toNat = 125 then some ([(String.mk k.data, v)], r4)
              else none) = some ([(k, v)], rest)
          rw [show serMembersTail [] ++ '}' :: rest = '}' :: rest from rfl,
            dropWs_cons_of (by decide)]
          simp only [show ('}' : Char).toNat = 125 from rfl]
          norm_num
        | cons m2 ms2 =>
          rw [show serMembersTail (m2 :: ms2) ++ '}' :: rest =
            ',' :: (serMembers (m2 :: ms2) ++ '}' :: rest) from rfl,
            dropWs_cons_of (by decide)]
          simp only [show (',' : Char).toNat = 44 from rfl]
          norm_num
          rw [ihM (m2 :: ms2) rest (by simp)
            (by obtain ⟨k2, v2⟩ := m2; simp [sizeMembers] at hsz ⊢; have := sizeV_pos v; omega)]



/-- Serialized length dominates parser-fuel size. -/
theorem size_le_length (n : Nat) :
    (∀ v, sizeV v ≤ n → sizeV v ≤ (serJson v).length) ∧
    (∀ vs, sizeElems vs ≤ n → sizeElems vs ≤ (serElems vs).length + 1) ∧
    (∀ ms, sizeMembers ms ≤ n → sizeMembers ms ≤ (serMembers ms).length + 1) := by
  induction n with
  | zero =>
    refine ⟨?_, ?_, ?_⟩
    · intro v h
      have := sizeV_pos v
      omega
    · intro vs h
      omega
    · intro ms h
      omega
  | succ n ih =>
    obtain ⟨ihV, ihE, ihM⟩ := ih
    refine ⟨?_, ?_, ?_⟩
    · intro v hsz
      cases v with
      | null => simp [sizeV, serJson]
      | bool b => cases b <;> simp [sizeV, serJson]
      | num i =>
        have h1 : natDigits i.natAbs ≠ [] := natDigits_ne_nil i.natAbs
        have h2 : 1 ≤ (natDigits i.natAbs).length := by
          cases h : natDigits i.natAbs with
          | nil => exact absurd h h1
          | cons a b => simp
        simp only [sizeV, serJson, serNum]
        by_cases hneg : i < 0
        · simp [hneg]
        · simp [hneg]
          omega
      | str s => simp [sizeV, serJson, serString]
      | arr vs =>
        cases vs with
        | nil => simp [sizeV, sizeElems, serJson]
        | cons v vs =>
          have he : sizeElems (v :: vs) ≤ (serElems (v :: vs)).length + 1 :=
            ihE (v :: vs) (by simp [sizeV] at hsz; omega)
          simp only [sizeV, serJson] at hsz ⊢
          simp only [List.length_cons, List.length_append, List.length_singleton]
          omega
      | obj ms =>
        cases ms with
        | nil => simp [sizeV, sizeMembers, serJson]
        | cons m ms =>
          have he : sizeMembers (m :: ms) ≤ (serMembers (m :: ms)).length + 1 :=
            ihM (m :: ms) (by simp [sizeV] at hsz; omega)
          simp only [sizeV, serJson] at hsz ⊢
          simp only [List.length_cons, List.length_append, List.length_singleton]
          omega
    · intro vs hsz
      cases vs with
      | nil => simp [sizeElems]
      | cons v vs =>
        have hv : sizeV v ≤ (serJson v).length :=
          ihV v (by simp [sizeElems] at hsz; omega)
        have he : sizeElems vs ≤ (serElems vs).length + 1 :=
          ihE vs (by simp [sizeElems] at hsz; have := sizeV_pos v; omega)
        rw [serElems_cons]
        cases vs with
        | nil =>
          simp only [sizeElems, serElemsTail, List.append_nil] at *
          omega
        | cons v2 vs2 =>
          simp only [sizeElems, serElemsTail, List.length_append, List.length_cons] at *
          omega
    · intro ms hsz
      cases ms with
      | nil => simp [sizeMembers]
      | cons m ms =>
        obtain ⟨k, v⟩ := m
        have hv : sizeV v ≤ (serJson v).length :=
          ihV v (by simp [sizeMembers] at hsz; omega)
        have he : sizeMembers ms ≤ (serMembers ms).length + 1 :=
          ihM ms (by simp [sizeMembers] at hsz; have := sizeV_pos v; omega)
        rw [serMembers_cons]
        cases ms with
        | nil =>
          simp only [sizeMembers, serMembersTail, List.append_nil, List.length_append,
            List.length_cons] at *
          omega
        | cons m2 ms2 =>
          simp only [sizeMembers, serMembersTail, List.length_append, List.length_cons] at *
          omega

/-- Round trip: parsing a serialized JSON value yields the value back. -/
theorem parseJson_serJson (v : JsonValue) : parseJson (String.mk (serJson v)) = some v := by
  have hb := (size_le_length (sizeV v)).1 v (Nat.le_refl _)
  have hc := (parse_complete ((serJson v).length + 1)).1 v [] (by omega) rfl
  rw [List.append_nil] at hc
  unfold parseJson
  rw [show (String.mk (serJson v)).length = (serJson v).length from rfl,
    show (String.mk (serJson v)).data = serJson v from rfl, hc]
  rfl



/-! ## Base64url round trip -/

theorem b64Val_b64Char : ∀ n, n < 64 → b64Val (b64Char n) = some n := by decide

theorem b64Char_ne_61 : ∀ n, n < 64 → (b64Char n).toNat ≠ 61 := by decide

theorem b64Encode_chars {bs : List Nat} (h : ∀ b ∈ bs, b < 256) :
    ∀ c ∈ b64Encode bs, ∃ m, m < 64 ∧ c = b64Char m := by
  induction bs using b64Encode.induct with
  | case1 => intro c hc; simp [b64Encode] at hc
  | case2 b1 =>
    intro c hc
    have hb1 : b1 < 256 := h b1 (by simp)
    simp [b64Encode] at hc
    rcases hc with rfl | rfl
    · exact ⟨b1 / 4, by omega, rfl⟩
    · exact ⟨b1 % 4 * 16, by omega, rfl⟩
  | case3 b1 b2 =>
    intro c hc
    have hb1 : b1 < 256 := h b1 (by simp)
    have hb2 : b2 < 256 := h b2 (by simp)
    simp [b64Encode] at hc
    rcases hc with rfl | rfl | rfl
    · exact ⟨b1 / 4, by omega, rfl⟩
    · exact ⟨b1 % 4 * 16 + b2 / 16, by omega, rfl⟩
    · exact ⟨b2 % 16 * 4, by omega, rfl⟩
  | case4 b1 b2 b3 rest ih =>
    intro c hc
    have hb1 : b1 < 256 := h b1 (by simp)
    have hb2 : b2 < 256 := h b2 (by simp)
    have hb3 : b3 < 256 := h b3 (by simp)
    have hrest : ∀ b ∈ rest, b < 256 := fun b hb => h b (by simp [hb])
    simp only [b64Encode, List.mem_cons] at hc
    rcases hc with rfl | rfl | rfl | rfl | hc
    · exact ⟨b1 / 4, by omega, rfl⟩
    · exact ⟨b1 % 4 * 16 + b2 / 16, by omega, rfl⟩
    · exact ⟨b2 % 16 * 4 + b3 / 64, by omega, rfl⟩
    · exact ⟨b3 % 64, by omega, rfl⟩
    · exact ih hrest c hc


theorem padB64_append {x y : List Char} (hx : x.length % 4 = 0) :
    padB64 (x ++ y) = x ++ padB64 y := by
  unfold padB64
  simp only [List.length_append]
  have hmod : (x.length + y.length) % 4 = y.length % 4 := by omega
  rw [hmod]
  by_cases hc : 4 - y.length % 4 ≠ 4
  · simp [hc, List.append_assoc]
  · simp [hc]

theorem b64DecodeQuads_pad_encode (bs : List Nat) (h : ∀ b ∈ bs, b < 256) :
    b64DecodeQuads (padB64 (b64Encode bs)) = some bs := by
  induction bs using b64Encode.induct with
  | case1 => rfl
  | case2 b1 =>
    have hb1 : b1 < 256 := h b1 (by simp)
    show b64DecodeQuads (padB64 [b64Char (b1 / 4), b64Char (b1 % 4 * 16)]) = some [b1]
    rw [show padB64 [b64Char (b1 / 4), b64Char (b1 % 4 * 16)] =
      [b64Char (b1 / 4), b64Char (b1 % 4 * 16), '=', '='] from by simp [padB64]]
    simp only [b64DecodeQuads]
    rw [if_pos (by decide)]
    rw [b64Val_b64Char _ (by omega), b64Val_b64Char _ (by omega)]
    simp only [Option.bind_eq_bind, Option.some_bind, Option.some.injEq, List.cons.injEq,
      and_true]
    omega
  | case3 b1 b2 =>
    have hb1 : b1 < 256 := h b1 (by simp)
    have hb2 : b2 < 256 := h b2 (by simp)
    show b64DecodeQuads (padB64
      [b64Char (b1 / 4), b64Char (b1 % 4 * 16 + b2 / 16), b64Char (b2 % 16 * 4)]) =
      some [b1, b2]
    rw [show padB64 [b64Char (b1 / 4), b64Char (b1 % 4 * 16 + b2 / 16), b64Char (b2 % 16 * 4)] =
      [b64Char (b1 / 4), b64Char (b1 % 4 * 16 + b2 / 16), b64Char (b2 % 16 * 4), '='] from by
        simp [padB64]]
    simp only [b64DecodeQuads]
    rw [if_neg (by
      rintro ⟨-, h61, -⟩
      exact b64Char_ne_61 (b2 % 16 * 4) (by omega) h61)]
    rw [if_pos (by decide)]
    rw [b64Val_b64Char _ (by omega), b64Val_b64Char _ (by omega), b64Val_b64Char _ (by omega)]
    simp only [Option.bind_eq_bind, Option.some_bind, Option.some.injEq, List.cons.injEq,
      and_true]
    constructor
    · omega
    · omega
  | case4 b1 b2 b3 rest ih =>
    have hb1 : b1 < 256 := h b1 (by simp)
    have hb2 : b2 < 256 := h b2 (by simp)
    have hb3 : b3 < 256 := h b3 (by simp)
    have hrest : ∀ b ∈ rest, b < 256 := fun b hb => h b (by simp [hb])
    show b64DecodeQuads (padB64
      (b64Char (b1 / 4) :: b64Char (b1 % 4 * 16 + b2 / 16) ::
        b64Char (b2 % 16 * 4 + b3 / 64) :: b64Char (b3 % 64) :: b64Encode rest)) =
      some (b1 :: b2 :: b3 :: rest)
    rw [show b64Char (b1 / 4) :: b64Char (b1 % 4 * 16 + b2 / 16) ::
        b64Char (b2 % 16 * 4 + b3 / 64) :: b64Char (b3 % 64) :: b64Encode rest =
      [b64Char (b1 / 4), b64Char (b1 % 4 * 16 + b2 / 16),
        b64Char (b2 % 16 * 4 + b3 / 64), b64Char (b3 % 64)] ++ b64Encode rest from rfl]
    rw [padB64_append (by simp)]
    simp only [List.cons_append, List.nil_append, b64DecodeQuads]
    rw [if_neg (by
      rintro ⟨-, h61, -⟩
      exact b64Char_ne_61 (b2 % 16 * 4 + b3 / 64) (by omega) h61)]
    rw [if_neg (by
      rintro ⟨-, h61⟩
      exact b64Char_ne_61 (b3 % 64) (by omega) h61)]
    simp only [List.append_eq, List.nil_append]
    rw [b64Val_b64Char _ (by omega), b64Val_b64Char _ (by omega), b64Val_b64Char _ (by omega),
      b64Val_b64Char _ (by omega), ih hrest]
    simp only [Option.bind_eq_bind, Option.some_bind, Option.some.injEq, List.cons.injEq]
    refine ⟨by omega, by omega, by omega, trivial⟩

theorem urlsafeB64Decode_pad_encode (bs : List Nat) (h : ∀ b ∈ bs, b < 256) :
    urlsafeB64Decode (padB64 (b64Encode bs)) = some bs := by
  unfold urlsafeB64Decode
  rw [show (padB64 (b64Encode bs)).filter
        (fun c => (b64Val c).isSome || c.toNat = 61) = padB64 (b64Encode bs) from ?_]
  · exact b64DecodeQuads_pad_encode bs h
  · rw [List.filter_eq_self]
    intro c hc
    unfold padB64 at hc
    have hpass : ∀ d ∈ b64Encode bs, ((b64Val d).isSome || d.toNat = 61) = true := by
      intro d hd
      obtain ⟨m, hm, rfl⟩ := b64Encode_chars h d hd
      rw [b64Val_b64Char m hm]
      simp
    by_cases hcase : 4 - (b64Encode bs).length % 4 ≠ 4
    · rw [if_pos hcase] at hc
      rcases List.mem_append.mp hc with hin | hin
      · exact hpass c hin
      · rw [List.eq_of_mem_replicate hin]
        decide
    · rw [if_neg hcase] at hc
      exact hpass c hc



/-! ## UTF-8 round trip -/

theorem utf8EncodeChar_length_pos (c : Char) : 1 ≤ (utf8EncodeChar c).length := by
  unfold utf8EncodeChar
  by_cases h1 : c.toNat < 0x80
  · simp [h1]
  · by_cases h2 : c.toNat < 0x800
    · simp [h1, h2]
    · by_cases h3 : c.toNat < 0x10000
      · simp [h1, h2, h3]
      · simp [h1, h2, h3]

theorem utf8Encode_length_ge (l : List Char) : l.length ≤ (utf8Encode l).length := by
  induction l with
  | nil => simp [utf8Encode]
  | cons c l ih =>
    have := utf8EncodeChar_length_pos c
    simp only [utf8Encode, List.length_append, List.length_cons]
    omega

theorem utf8DecodeF_encode :
    ∀ f (cs : List Char), cs.length < f → utf8DecodeF f (utf8Encode cs) = some cs := by
  intro f
  induction f with
  | zero => intro cs h; omega
  | succ f ih =>
    intro cs hlen
    cases cs with
    | nil => rfl
    | cons c cs =>
      have hf : cs.length < f := by simp at hlen; omega
      have hv : c.toNat < 0xD800 ∨ (0xDFFF < c.toNat ∧ c.toNat < 0x110000) := c.valid
      show utf8DecodeF (f + 1) (utf8EncodeChar c ++ utf8Encode cs) = some (c :: cs)
      by_cases h1 : c.toNat < 0x80
      · rw [show utf8EncodeChar c = [c.toNat] from by simp [utf8EncodeChar, h1],
          List.cons_append, List.nil_append, utf8DecodeF, if_pos h1, ih cs hf]
        simp [Char.ofNat_toNat]
      · by_cases h2 : c.toNat < 0x800
        · rw [show utf8EncodeChar c = [0xC0 + c.toNat / 64, 0x80 + c.toNat % 64] from by
            simp [utf8EncodeChar, h1, h2]]
          simp only [List.cons_append, List.nil_append]
          rw [utf8DecodeF, if_neg (by omega), if_neg (by omega), if_pos (by omega)]
          have hl : utf8Lead2 (0xC0 + c.toNat / 64) ((0x80 + c.toNat % 64) :: utf8Encode cs) =
              some (c.toNat, utf8Encode cs) := by
            rw [utf8Lead2, if_pos ⟨by omega, by omega⟩]
            simp only [Option.some.injEq, Prod.mk.injEq]
            exact ⟨by omega, trivial⟩
          rw [hl]
          simp only []
          rw [ih cs hf]
          simp [Char.ofNat_toNat]
        · by_cases h3 : c.toNat < 0x10000
          · rw [show utf8EncodeChar c =
              [0xE0 + c.toNat / 4096, 0x80 + c.toNat / 64 % 64, 0x80 + c.toNat % 64] from by
                simp [utf8EncodeChar, h1, h2, h3]]
            simp only [List.cons_append, List.nil_append]
            rw [utf8DecodeF, if_neg (by omega), if_neg (by omega), if_neg (by omega),
              if_pos (by omega)]
            have hl : utf8Lead3 (0xE0 + c.toNat / 4096)
                ((0x80 + c.toNat / 64 % 64) :: (0x80 + c.toNat % 64) :: utf8Encode cs) =
                some (c.toNat, utf8Encode cs) := by
              rw [utf8Lead3, if_pos ⟨⟨by omega, by omega⟩, by omega, by omega⟩]
              simp only []
              rw [if_neg (by omega), if_neg (by omega)]
              simp only [Option.some.injEq, Prod.mk.injEq]
              exact ⟨by omega, trivial⟩
            rw [hl]
            simp only []
            rw [ih cs hf]
            simp [Char.ofNat_toNat]
          · rw [show utf8EncodeChar c =
              [0xF0 + c.toNat / 262144, 0x80 + c.toNat / 4096 % 64,
                0x80 + c.toNat / 64 % 64, 0x80 + c.toNat % 64] from by
                simp [utf8EncodeChar, h1, h2, h3]]
            simp only [List.cons_append, List.nil_append]
            rw [utf8DecodeF, if_neg (by omega), if_neg (by omega), if_neg (by omega),
              if_neg (by omega), if_pos (by omega)]
            have hl : utf8Lead4 (0xF0 + c.toNat / 262144)
                ((0x80 + c.toNat / 4096 % 64) :: (0x80 + c.toNat / 64 % 64) ::
                  (0x80 + c.toNat % 64) :: utf8Encode cs) =
                some (c.toNat, utf8Encode cs) := by
              rw [utf8Lead4, if_pos ⟨⟨by omega, by omega⟩, ⟨by omega, by omega⟩, by omega, by omega⟩]
              simp only []
              rw [if_neg (by omega)]
              simp only [Option.some.injEq, Prod.mk.injEq]
              exact ⟨by omega, trivial⟩
            rw [hl]
            simp only []
            rw [ih cs hf]
            simp [Char.ofNat_toNat]

theorem utf8Decode_utf8Encode (l : List Char) : utf8Decode (utf8Encode l) = some l := by
  have := utf8Encode_length_ge l
  exact utf8DecodeF_encode ((utf8Encode l).length + 1) l (by omega)



/-! ## Token-level round trip -/

theorem b64Char_ne_46 : ∀ n, n < 64 → (b64Char n).toNat ≠ 46 := by decide

theorem utf8EncodeChar_bytes_lt (c : Char) : ∀ b ∈ utf8EncodeChar c, b < 256 := by
  have hv : c.toNat < 0xD800 ∨ (0xDFFF < c.toNat ∧ c.toNat < 0x110000) := c.valid
  intro b hb
  unfold utf8EncodeChar at hb
  by_cases h1 : c.toNat < 0x80
  · simp [h1] at hb
    omega
  · by_cases h2 : c.toNat < 0x800
    · simp [h1, h2] at hb
      omega
    · by_cases h3 : c.toNat < 0x10000
      · simp [h1, h2, h3] at hb
        omega
      · simp [h1, h2, h3] at hb
        omega

theorem utf8Encode_bytes_lt (l : List Char) : ∀ b ∈ utf8Encode l, b < 256 := by
  induction l with
  | nil => simp [utf8Encode]
  | cons c l ih =>
    intro b hb
    rcases List.mem_append.mp hb with hin | hin
    · exact utf8EncodeChar_bytes_lt c b hin
    · exact ih b hin

theorem splitDot_nodot (l : List Char) (h : ∀ c ∈ l, c.toNat ≠ 46) : splitDot l = [l] := by
  induction l with
  | nil => rfl
  | cons c l ih =>
    rw [splitDot, if_neg (h c (by simp)), ih (fun d hd => h d (by simp [hd]))]

theorem splitDot_seg (seg : List Char) (h : ∀ c ∈ seg, c.toNat ≠ 46) (tail : List Char) :
    splitDot (seg ++ '.' :: tail) = seg :: splitDot tail := by
  induction seg with
  | nil =>
    simp only [List.nil_append]
    rw [splitDot, if_pos (by decide)]
  | cons c seg ih =>
    simp only [List.cons_append]
    rw [splitDot, if_neg (h c (by simp)), ih (fun d hd => h d (by simp [hd]))]

/-- The decode side of the Token Inspector inverts the synthetic-token
construction: serialize, base64url-encode unpadded, place as the middle
segment of a 3-part token with dot-free header and signature segments. -/
theorem decode_jwt_payload_roundtrip (hdr sig : List Char) (v : JsonValue)
    (hh : ∀ c ∈ hdr, c.toNat ≠ 46) (hs : ∀ c ∈ sig, c.toNat ≠ 46) :
    decode_jwt_payload (String.mk
      (hdr ++ '.' :: (b64Encode (utf8Encode (serJson v)) ++ '.' :: sig))) = v := by
  have hbytes : ∀ b ∈ utf8Encode (serJson v), b < 256 := utf8Encode_bytes_lt (serJson v)
  have hmid : ∀ c ∈ b64Encode (utf8Encode (serJson v)), c.toNat ≠ 46 := by
    intro c hc
    obtain ⟨m, hm, rfl⟩ := b64Encode_chars hbytes c hc
    exact b64Char_ne_46 m hm
  unfold decode_jwt_payload decodeJwtPayloadCore decodeJwtPayloadWith
  rw [show (String.mk (hdr ++ '.' :: (b64Encode (utf8Encode (serJson v)) ++ '.' :: sig))).data =
    hdr ++ '.' :: (b64Encode (utf8Encode (serJson v)) ++ '.' :: sig) from rfl]
  rw [splitDot_seg hdr hh, splitDot_seg _ hmid, splitDot_nodot sig hs]
  simp only []
  rw [urlsafeB64Decode_pad_encode _ hbytes]
  simp only [Option.bind_eq_bind, Option.some_bind]
  rw [utf8Decode_utf8Encode]
  simp only [Option.some_bind]
  rw [show String.mk (serJson v) = String.mk (serJson v) from rfl, parseJson_serJson]
  rfl



/-! ## Configuration Resolver (environment handling of
`healthmate_coach_ai/agent.py`)

`Env` models the process environment; `lookupStr` is `os.environ.get` /
`dict.get`.  Reads are instrumented in the `_logged` variants with the list
of variable names read, in order. -/

/-- A process environment / attribute mapping. -/
def Env : Type := List (String × String)

/-- `d.get(key)`: first binding wins. -/
def lookupStr : List (String × String) → String → Option String
  | [], _ => none
  | (k, v) :: rest, key => if k = key then some v else lookupStr rest key

/-- `os.environ.get(key)`. -/
def envGet (env : Env) (key : String) : Option String := lookupStr env key

/-- Characters removed by Python's `str.strip()` (ASCII whitespace). -/
def isStripChar (c : Char) : Bool :=
  c.toNat = 32 || c.toNat = 9 || c.toNat = 10 || c.toNat = 13 || c.toNat = 11 || c.toNat = 12

/-- Python's `str.strip()`: drop leading and trailing whitespace. -/
def pyStrip (s : String) : String :=
  String.mk (((s.data.dropWhile isStripChar).reverse.dropWhile isStripChar).reverse)

/-- The test `if not value or len(value.strip()) == 0` applied to an
optional environment value. -/
def envMissing : Option String → Bool
  | none => true
  | some s => s = "" || pyStrip s = ""

/-- `_validate_required_environment_variables`: checks
`AGENTCORE_PROVIDER_NAME` and `HEALTHMANAGER_GATEWAY_ID` (and only these
two), raising when any is absent or blank. -/
def validate_required_environment_variables (env : Env) : Except String Unit :=
  if envMissing (envGet env "AGENTCORE_PROVIDER_NAME") ||
      envMissing (envGet env "HEALTHMANAGER_GATEWAY_ID") then
    .error "環境変数検証エラー: 以下の必須環境変数が設定されていません"
  else .ok ()

/-- `M2MAuthConfig` instance data. -/
structure M2MAuthConfig where
  provider_name : String
  cognito_scope : String
  auth_flow : String
  force_authentication : Bool

/-- `M2MAuthConfig.__init__` / `_get_provider_name`: reads
`AGENTCORE_PROVIDER_NAME`, raising when falsy. -/
def m2mAuthConfigInit (env : Env) : Except String M2MAuthConfig :=
  match envGet env "AGENTCORE_PROVIDER_NAME" with
  | none => .error "環境変数 AGENTCORE_PROVIDER_NAME が設定されていません。M2M認証には必須です。"
  | some p =>
    if p = "" then
      .error "環境変数 AGENTCORE_PROVIDER_NAME が設定されていません。M2M認証には必須です。"
    else .ok ⟨p, "HealthManager/HealthTarget:invoke", "M2M", false⟩

/-- `M2MAuthConfig.validate_config`. -/
def m2mValidateConfig (cfg : M2MAuthConfig) : Bool :=
  !(cfg.provider_name = "") && !(cfg.cognito_scope = "") && (cfg.auth_flow = "M2M")

/-- Module initialization (lines 186-204): validate the two required
environment variables, then construct the global `M2MAuthConfig`.  Any error
aborts startup (the module re-raises).  The memory id is *not* consulted
here. -/
def module_init (env : Env) : Except String M2MAuthConfig := do
  let _ ← validate_required_environment_variables env
  m2mAuthConfigInit env

/-- `_get_gateway_endpoint`: reads `HEALTHMANAGER_GATEWAY_ID` (raising when
falsy) and `AWS_REGION` (defaulting to `us-west-2`) on *every* call — no
caching. -/
def get_gateway_endpoint (env : Env) : Except String String :=
  match envGet env "HEALTHMANAGER_GATEWAY_ID" with
  | none => .error "環境変数 HEALTHMANAGER_GATEWAY_ID が設定されていません"
  | some gid =>
    if gid = "" then .error "環境変数 HEALTHMANAGER_GATEWAY_ID が設定されていません"
    else
      .ok ("https://" ++ gid ++ ".gateway.bedrock-agentcore." ++
        ((envGet env "AWS_REGION").getD "us-west-2") ++ ".amazonaws.com/mcp")

/-- `_get_gateway_endpoint`, instrumented with the environment reads it
performs (in order). -/
def get_gateway_endpoint_logged (env : Env) : Except String String × List String :=
  match envGet env "HEALTHMANAGER_GATEWAY_ID" with
  | none =>
    (.error "環境変数 HEALTHMANAGER_GATEWAY_ID が設定されていません", ["HEALTHMANAGER_GATEWAY_ID"])
  | some gid =>
    if gid = "" then
      (.error "環境変数 HEALTHMANAGER_GATEWAY_ID が設定されていません", ["HEALTHMANAGER_GATEWAY_ID"])
    else
      (.ok ("https://" ++ gid ++ ".gateway.bedrock-agentcore." ++
        ((envGet env "AWS_REGION").getD "us-west-2") ++ ".amazonaws.com/mcp"),
        ["HEALTHMANAGER_GATEWAY_ID", "AWS_REGION"])

/-- Two consecutive `_get_gateway_endpoint` calls: both results and the
combined read log. -/
def gateway_endpoint_two_calls (env : Env) :
    (Except String String × Except String String) × List String :=
  let r1 := get_gateway_endpoint_logged env
  let r2 := get_gateway_endpoint_logged env
  ((r1.1, r2.1), r1.2 ++ r2.2)

/-- `_get_m2m_auth_config` with its module-global cache made explicit:
returns the result, the new cache state, and the environment reads
performed. -/
def get_m2m_auth_config_logged (cache : Option M2MAuthConfig) (env : Env) :
    Except String M2MAuthConfig × Option M2MAuthConfig × List String :=
  match cache with
  | some cfg =>
    if m2mValidateConfig cfg then (.ok cfg, some cfg, [])
    else (.error "M2M認証設定が無効です。環境変数を確認してください。", some cfg, [])
  | none =>
    match m2mAuthConfigInit env with
    | .error e => (.error ("M2M認証設定の取得に失敗しました: " ++ e), none,
        ["AGENTCORE_PROVIDER_NAME"])
    | .ok cfg =>
      if m2mValidateConfig cfg then (.ok cfg, some cfg, ["AGENTCORE_PROVIDER_NAME"])
      else (.error "M2M認証設定が無効です。環境変数を確認してください。", some cfg,
        ["AGENTCORE_PROVIDER_NAME"])

/-- `_get_memory_id`: strict validation of `BEDROCK_AGENTCORE_MEMORY_ID`,
performed only when an agent is constructed (lazily per request). -/
def get_memory_id (env : Env) : Except String String :=
  match envGet env "BEDROCK_AGENTCORE_MEMORY_ID" with
  | none => .error "環境変数 BEDROCK_AGENTCORE_MEMORY_ID が設定されていません。AgentCore Memory機能には必須です。"
  | some m =>
    if m = "" then
      .error "環境変数 BEDROCK_AGENTCORE_MEMORY_ID が設定されていません。AgentCore Memory機能には必須です。"
    else if (pyStrip m).length = 0 then
      .error "環境変数 BEDROCK_AGENTCORE_MEMORY_ID が空です。有効なメモリIDを設定してください。"
    else if m.length < 10 then
      .error "環境変数 BEDROCK_AGENTCORE_MEMORY_ID の値が短すぎます。有効なメモリIDを設定してください。"
    else .ok m

/-- The memory scope `(memory_id, session_id, actor_id)` binding a
conversation to the memory store. -/
structure MemoryScope where
  memory_id : String
  session_id : String
  actor_id : String

/-- `_validate_memory_config`: accumulates parameter errors and raises when
any exist. -/
def validate_memory_config (memoryId sessionId actorId : String) : Except String Unit :=
  let errs :=
    (if memoryId = "" || pyStrip memoryId = "" then ["Memory ID が空です"]
     else if memoryId.length < 10 then ["Memory ID が短すぎます"] else []) ++
    (if sessionId = "" || pyStrip sessionId = "" then ["Session ID が空です"]
     else if sessionId.length < 33 then ["Session ID が短すぎます"] else []) ++
    (if actorId = "" || pyStrip actorId = "" then ["Actor ID が空です"] else [])
  if errs.isEmpty then .ok ()
  else .error ("AgentCore Memory設定パラメータエラー: " ++ String.intercalate ", " errs)

/-- The memory-scope construction inside
`_create_health_coach_agent_with_memory`: strict memory-id resolution, then
parameter validation, then the `AgentCoreMemoryConfig` triple. -/
def create_agent_memory_scope (env : Env) (sessionId actorId : String) :
    Except String MemoryScope := do
  let mid ← get_memory_id env
  let _ ← validate_memory_config mid sessionId actorId
  .ok ⟨mid, sessionId, actorId⟩



/-! ## Gateway Client (`_call_mcp_gateway` of both agent variants)

The HTTP round trip is abstracted as an `HttpOutcome`; the embedding is the
classification the code applies to it.  Error kinds carry the data the
corresponding raised message carries. -/

/-- Outcome of the HTTP POST to the gateway endpoint. -/
inductive HttpOutcome where
  | response (status : Nat) (body : String)
  | timeout
  | connectFail

/-- Classified gateway-call failures (one constructor per distinct raised
error class). -/
inductive GatewayError where
  | missingToken
  | endpointError (msg : String)
  | authError
  | authzError
  | notFoundError
  | upstreamError (status : Nat) (body : String)
  | httpError (status : Nat) (body : String)
  | jsonError (body : String)
  | protocolError (err : JsonValue)
  | unexpectedError (body : String)
  | timeoutError
  | connectError

/-- Classify a parsed 200 body: a body with an `error` member fails with the
protocol error; otherwise the body's `result` member (if any) is returned.
A non-object body makes the subsequent `dict` accesses raise, surfacing via
the catch-all handler. -/
def classify200 (body : String) : Except GatewayError (Option JsonValue) :=
  match parseJson body with
  | none => .error (.jsonError body)
  | some (.obj members) =>
    match jlookup "error" members with
    | some e => .error (.protocolError e)
    | none => .ok (jlookup "result" members)
  | some _ => .error (.unexpectedError body)

/-- `_call_mcp_gateway` (healthmate_coach_ai, lines 547-710): token
requirement, endpoint resolution, then classification by HTTP status —
401/403/404/≥500/other non-200 — then JSON-body handling; timeouts and
connection failures are caught separately. -/
def call_mcp_gateway (env : Env) (accessToken : Option String) (out : HttpOutcome) :
    Except GatewayError (Option JsonValue) :=
  match accessToken with
  | none => .error .missingToken
  | some tok =>
    if tok = "" then .error .missingToken
    else
      match get_gateway_endpoint env with
      | .error e => .error (.endpointError e)
      | .ok _ =>
        match out with
        | .timeout => .error .timeoutError
        | .connectFail => .error .connectError
        | .response status body =>
          if status = 401 then .error .authError
          else if status = 403 then .error .authzError
          else if status = 404 then .error .notFoundError
          else if 500 ≤ status then .error (.upstreamError status body)
          else if status ≠ 200 then .error (.httpError status body)
          else classify200 body

/-- `_call_mcp_gateway` (health_coach_ai, lines 182-223): token requirement,
then *every* non-200 status raises the one generic `HTTP エラー {status}`
exception; a 200 body with an `error` member raises `MCP エラー`.  No
status-specific classification, and no handler for timeout or connection
errors (the transport exceptions propagate). -/
def call_mcp_gateway_legacy (jwtToken : Option String) (out : HttpOutcome) :
    Except GatewayError (Option JsonValue) :=
  match jwtToken with
  | none => .error .missingToken
  | some tok =>
    if tok = "" then .error .missingToken
    else
      match out with
      | .timeout => .error .timeoutError
      | .connectFail => .error .connectError
      | .response status body =>
        if status ≠ 200 then .error (.httpError status body)
        else classify200 body

/-! ## Event Relay (`send_event`, `_extract_health_coach_events`,
`invoke_health_coach`) -/

/-- `d.get(k)` on a JSON value (`None` when absent or not a dict). -/
def jGet (j : JsonValue) (k : String) : Option JsonValue :=
  match j with
  | .obj members => jlookup k members
  | _ => none

/-- The outbound text-delta event shape
`\x7b"event": \x7b"contentBlockDelta": \x7b"delta": \x7b"text": t\x7d\x7d\x7d\x7d`. -/
def textDeltaEvent (t : String) : JsonValue :=
  .obj [("event", .obj [("contentBlockDelta", .obj [("delta", .obj [("text", .str t)])])])]

/-- `send_event`: the progress event shape
`\x7b"event": \x7b"subAgentProgress": \x7b"message", "stage"[, "tool_name"]\x7d\x7d\x7d`. -/
def progressEvent (message stage : String) (toolName : Option String) : JsonValue :=
  .obj [("event", .obj [("subAgentProgress", .obj
    (("message", .str message) :: ("stage", .str stage) ::
      (match toolName with
       | some t => [("tool_name", .str t)]
       | none => [])))])]

/-- One raw event of the agent's internal stream: a plain text chunk or a
structured event dictionary. -/
inductive AgentEvent where
  | text (s : String)
  | dict (j : JsonValue)

/-- `_extract_health_coach_events` for one raw event, with the queue
present: the queue items put (in order) and the text appended to the
transcript. -/
def extract_health_coach_events (ev : AgentEvent) : List JsonValue × String :=
  match ev with
  | .text s => ([textDeltaEvent s], s)
  | .dict j =>
    match jGet j "event" with
    | none => ([], "")
    | some eventData =>
      let toolEvents :=
        match ((jGet eventData "contentBlockStart").bind (jGet · "start")).bind
            (jGet · "toolUse") with
        | some toolUse =>
          let tool :=
            match jGet toolUse "name" with
            | some (.str n) => n
            | _ => "unknown"
          [progressEvent ("健康データを" ++ tool ++ "で処理中") "tool_use" (some tool)]
        | none => []
      match ((jGet eventData "contentBlockDelta").bind (jGet · "delta")).bind
          (jGet · "text") with
      | some (.str t) => (toolEvents ++ [j], t)
      | some _ => (toolEvents ++ [j], "")
      | none => (toolEvents, "")

/-- One complete agent run as seen by the relay: the raw events the agent
produced before it either finished or raised (`failure` is the exception
message, `none` when the run completed). -/
structure AgentRun where
  events : List AgentEvent
  failure : Option String

/-- The events `invoke_health_coach` puts on a caller-supplied queue for one
run: the `start` event, the extraction of each raw event in order, then
exactly one terminal event — `complete` on success, `error` (with the
wrapped message) when the run raised. -/
def invoke_health_coach_queue (run : AgentRun) : List JsonValue :=
  progressEvent "Healthmate-CoachAIが起動中" "start" none ::
    (run.events.flatMap (fun e => (extract_health_coach_events e).1) ++
      [match run.failure with
       | none => progressEvent "Healthmate-CoachAIが応答を完了" "complete" none
       | some msg => progressEvent ("AgentCore Memory統合エラー: " ++ msg) "error" none])

/-- Is a queue item a terminal progress event (stage `complete` or
`error`)? -/
def isTerminalEvent (j : JsonValue) : Bool :=
  match ((jGet j "event").bind (jGet · "subAgentProgress")).bind (jGet · "stage") with
  | some (.str s) => s = "complete" || s = "error"
  | _ => false

/-- Well-formedness of a raw agent event (the agent-runtime stream contract):
a structured event never itself carries a `subAgentProgress` payload — that
shape belongs to this layer's own progress events. -/
def agentEventWf : AgentEvent → Bool
  | .text _ => true
  | .dict j => ((jGet j "event").bind (jGet · "subAgentProgress")).isNone



/-! ## Entry Orchestrator (`invoke`, healthmate_coach_ai lines 1042-1231)

The entrypoint is modelled as a function from the inbound payload to the
events it yields together with counters for the side effects of the later
phases (gateway/credential calls, memory scopes, queue and agent
construction).  The post-validation phase (agent run and fan-in drain loop)
is a parameter, so that the early-return paths are provably independent of
it. -/

/-- The inbound payload: `prompt` (absent modelled as `none`; the code reads
it with default `""`) and the `sessionState.sessionAttributes` mapping
(absent as `none`). -/
structure Payload where
  prompt : Option String
  sessionAttrs : Option (List (String × String))

/-- The validated request context assembled by the entrypoint before agent
work begins. -/
structure ValidatedRequest where
  prompt : String
  session_id : String
  jwt_token : String
  timezone : String
  language : String
  actor_id : JsonValue

/-- Observable effects of one entrypoint invocation. -/
structure RunEffects where
  events : List JsonValue
  gatewayCalls : Nat
  credentialCalls : Nat
  memoryScopes : List MemoryScope
  queuesCreated : Nat
  agentsConstructed : Nat

/-- Effects of an early return: the given events and no side effects. -/
def earlyReturn (evs : List JsonValue) : RunEffects :=
  ⟨evs, 0, 0, [], 0, 0⟩

def jwtMissingMsg : String :=
  "エラー: 必須フィールド 'jwt_token' がペイロードに含まれていません。認証が必要です。"

def sessionMissingMsg : String :=
  "エラー: 必須フィールド 'session_id' がペイロードに含まれていません。セッション管理が必要です。"

def sessionShortMsg (len : Nat) : String :=
  "エラー: session_id の長さが不正です（" ++ toString len ++ "文字）。33文字以上が必要です。"

def subErrorMsg : String :=
  "エラー: JWT トークンから sub を抽出できませんでした。有効な認証トークンが必要です。"

def greetingMsg : String :=
  "こんにちは！健康に関してどのようなサポートが必要ですか？"

/-- Result of the entrypoint's prologue (extraction, strict validation,
subject extraction, empty-prompt greeting). -/
inductive Prologue where
  | rejected (ev : JsonValue)
  | greeting (ev : JsonValue)
  | proceed (v : ValidatedRequest)

/-- The entrypoint prologue, in the code's order: extract fields (with
defaults for `timezone`/`language`), validate `jwt_token` present and
non-empty, `session_id` present, `session_id` length ≥ 33, extract the
subject (hard failure when it cannot be extracted or is falsy), and yield
the greeting when the prompt is empty. -/
def invoke_prologue (p : Payload) : Prologue :=
  let prompt := p.prompt.getD ""
  let attrs := p.sessionAttrs.getD []
  let timezone := (lookupStr attrs "timezone").getD "Asia/Tokyo"
  let language := (lookupStr attrs "language").getD "ja"
  match lookupStr attrs "jwt_token" with
  | none => .rejected (textDeltaEvent jwtMissingMsg)
  | some jwtTok =>
    if jwtTok = "" then .rejected (textDeltaEvent jwtMissingMsg)
    else
      match lookupStr attrs "session_id" with
      | none => .rejected (textDeltaEvent sessionMissingMsg)
      | some sid =>
        if sid = "" then .rejected (textDeltaEvent sessionMissingMsg)
        else if sid.length < 33 then .rejected (textDeltaEvent (sessionShortMsg sid.length))
        else
          match get_sub_from_jwt jwtTok with
          | none => .rejected (textDeltaEvent subErrorMsg)
          | some actor =>
            if jsonFalsy actor then .rejected (textDeltaEvent subErrorMsg)
            else if prompt = "" then .greeting (textDeltaEvent greetingMsg)
            else .proceed ⟨prompt, sid, jwtTok, timezone, language, actor⟩

/-- The entrypoint `invoke`: early returns yield exactly one event and
perform no further work; otherwise the event queue is created and the
post-validation phase runs. -/
def invoke (phase : ValidatedRequest → RunEffects) (p : Payload) : RunEffects :=
  match invoke_prologue p with
  | .rejected ev => earlyReturn [ev]
  | .greeting ev => earlyReturn [ev]
  | .proceed v =>
    let eff := phase v
    { eff with queuesCreated := eff.queuesCreated + 1 }



/-! ## Claim C3: configuration validation timing -/

/-- A concrete environment with the two startup-required variables set and
the memory id absent. -/
def envNoMemory : Env :=
  [("AGENTCORE_PROVIDER_NAME", "healthmate-m2m"), ("HEALTHMANAGER_GATEWAY_ID", "gwabc12345")]

/-- C3 counterexample: with the provider name and gateway id present but
`BEDROCK_AGENTCORE_MEMORY_ID` absent, module initialization *succeeds* —
the memory id is not checked at startup, contradicting the claim that its
absence raises before any request is served; it fails only lazily in
`_get_memory_id`. -/
theorem c3_memory_id_not_checked_at_startup :
    module_init envNoMemory =
      .ok ⟨"healthmate-m2m", "HealthManager/HealthTarget:invoke", "M2M", false⟩ ∧
    envGet envNoMemory "BEDROCK_AGENTCORE_MEMORY_ID" = none ∧
    get_memory_id envNoMemory =
      .error "環境変数 BEDROCK_AGENTCORE_MEMORY_ID が設定されていません。AgentCore Memory機能には必須です。" := by
  refine ⟨rfl, rfl, rfl⟩

/-- C3 amended: module initialization fails exactly when the provider name
or the gateway id is absent or blank; an absent memory id does not affect
startup but fails on first use (memory-scope construction at request time);
an absent region falls back to `us-west-2` inside the gateway endpoint and
never causes failure. -/
theorem c3_amended (env : Env) :
    ((module_init env).isOk ↔
      envMissing (envGet env "AGENTCORE_PROVIDER_NAME") = false ∧
      envMissing (envGet env "HEALTHMANAGER_GATEWAY_ID") = false) ∧
    (envGet env "BEDROCK_AGENTCORE_MEMORY_ID" = none →
      (∃ e, get_memory_id env = .error e) ∧
      ∀ sid aid, ∃ e, create_agent_memory_scope env sid aid = .error e) ∧
    (envGet env "AWS_REGION" = none → ∀ gid, envGet env "HEALTHMANAGER_GATEWAY_ID" = some gid →
      gid ≠ "" →
      get_gateway_endpoint env =
        .ok ("https://" ++ gid ++ ".gateway.bedrock-agentcore.us-west-2.amazonaws.com/mcp")) := by
  refine ⟨?_, ?_, ?_⟩
  · unfold module_init validate_required_environment_variables m2mAuthConfigInit
    by_cases h1 : envMissing (envGet env "AGENTCORE_PROVIDER_NAME") = true
    · simp [h1, Bind.bind, Except.bind]
      rfl
    · by_cases h2 : envMissing (envGet env "HEALTHMANAGER_GATEWAY_ID") = true
      · simp [h1, h2, Bind.bind, Except.bind]
        rfl
      · simp only [Bool.not_eq_true] at h1 h2
        simp only [h1, h2, Bool.or_self, Bool.false_or, if_false, Bind.bind, Except.bind]
        cases hp : envGet env "AGENTCORE_PROVIDER_NAME" with
        | none => simp [hp, envMissing] at h1
        | some p =>
          have hpne : ¬ p = "" := by
            rw [hp] at h1
            unfold envMissing at h1
            simp at h1
            intro hc
            simp [hc] at h1
          simp [hp, hpne, h1, h2]
          rfl
  · intro hmem
    constructor
    · exact ⟨_, by unfold get_memory_id; rw [hmem]⟩
    · intro sid aid
      have hs : create_agent_memory_scope env sid aid =
          .error "環境変数 BEDROCK_AGENTCORE_MEMORY_ID が設定されていません。AgentCore Memory機能には必須です。" := by
        unfold create_agent_memory_scope
        rw [show get_memory_id env = .error "環境変数 BEDROCK_AGENTCORE_MEMORY_ID が設定されていません。AgentCore Memory機能には必須です。" from by
          unfold get_memory_id
          rw [hmem]]
        rfl
      exact ⟨_, hs⟩
  · intro hreg gid hgid hne
    unfold get_gateway_endpoint
    rw [hgid, hreg]
    simp only [if_neg hne, Option.getD_none, Except.ok.injEq]
    simp [String.append_assoc]

/-- C3 amended, instantiated: a fully blank environment fails startup; the
no-memory environment is startup-ok but request-time memory construction
fails; region defaults. -/
theorem c3_amended_witness :
    (module_init envNoMemory).isOk ∧
    (∃ e, create_agent_memory_scope envNoMemory
      "healthmate-chat-0123456789abcdef0123456789abcdef" "user-1" = .error e) ∧
    get_gateway_endpoint envNoMemory =
      .ok "https://gwabc12345.gateway.bedrock-agentcore.us-west-2.amazonaws.com/mcp" := by
  refine ⟨?_, ?_, ?_⟩
  · rw [(c3_amended envNoMemory).1]
    exact ⟨rfl, rfl⟩
  · exact ((c3_amended envNoMemory).2.1 rfl).2 _ _
  · exact (c3_amended envNoMemory).2.2 rfl "gwabc12345" rfl (by decide)

/-! ## Claim C6: configuration caching -/

/-- C6 counterexample: across two consecutive `_get_gateway_endpoint` calls
the gateway id is read from the environment twice — the claim's "at most
once across the two calls" fails (the function performs no caching). -/
theorem c6_gateway_endpoint_not_cached :
    (gateway_endpoint_two_calls envNoMemory).2.count "HEALTHMANAGER_GATEWAY_ID" = 2 ∧
    ¬ ((gateway_endpoint_two_calls envNoMemory).2.count "HEALTHMANAGER_GATEWAY_ID" ≤ 1) := by
  refine ⟨by rfl, by decide⟩

/-- C6 amended: two consecutive Configuration Resolver calls return
identical values; the M2M auth config is cached (a second call with the
populated cache performs zero environment reads, and any single call reads
the environment at most once), but the gateway endpoint re-reads the
environment on every call: the gateway id is looked up exactly twice across
two calls. -/
theorem c6_amended (env : Env) :
    (gateway_endpoint_two_calls env).1.1 = (gateway_endpoint_two_calls env).1.2 ∧
    (gateway_endpoint_two_calls env).2.count "HEALTHMANAGER_GATEWAY_ID" = 2 ∧
    (∀ cfg, (get_m2m_auth_config_logged (some cfg) env).2.2 = [] ∧
      (get_m2m_auth_config_logged (some cfg) env).1 =
        (get_m2m_auth_config_logged (some cfg) env).1) ∧
    (∀ cache, (get_m2m_auth_config_logged cache env).2.2.length ≤ 1) := by
  refine ⟨rfl, ?_, ?_, ?_⟩
  · unfold gateway_endpoint_two_calls get_gateway_endpoint_logged
    cases hg : envGet env "HEALTHMANAGER_GATEWAY_ID" with
    | none => simp [hg]
    | some gid =>
      by_cases hne : gid = ""
      · simp [hg, hne]
      · simp [hg, hne, List.count_cons]
  · intro cfg
    unfold get_m2m_auth_config_logged
    by_cases hv : m2mValidateConfig cfg = true
    · simp [hv]
    · simp only [Bool.not_eq_true] at hv
      simp [hv]
  · intro cache
    unfold get_m2m_auth_config_logged
    cases cache with
    | some cfg =>
      by_cases hv : m2mValidateConfig cfg = true
      · simp [hv]
      · simp only [Bool.not_eq_true] at hv
        simp [hv]
    | none =>
      cases hi : m2mAuthConfigInit env with
      | error e => simp [hi]
      | ok cfg =>
        by_cases hv : m2mValidateConfig cfg = true
        · simp [hi, hv]
        · simp only [Bool.not_eq_true] at hv
          simp [hi, hv]



/-! ## Claim C2: gateway-call outcome classification -/

/-- The tools/list success body
`\x7b"jsonrpc":"2.0","id":1,"result":\x7b"tools":[]\x7d\x7d`. -/
def toolsListBody : String :=
  String.mk (serJson (.obj
    [("jsonrpc", .str "2.0"), ("id", .num 1), ("result", .obj [("tools", .arr [])])]))

/-- C2 counterexample: the `health_coach_ai` variant of `_call_mcp_gateway`
(one of the claim's two cited code sites) maps HTTP 401 to the one generic
`HTTP エラー` failure — the same kind every other non-200 status gets — not
to a distinct `AuthError`, so the claimed status table does not hold for
every Gateway Client call. -/
theorem c2_legacy_401_not_auth_error :
    call_mcp_gateway_legacy (some "user-jwt") (.response 401 "denied") =
      .error (.httpError 401 "denied") ∧
    call_mcp_gateway_legacy (some "user-jwt") (.response 402 "x") =
      .error (.httpError 402 "x") ∧
    (∀ s b, GatewayError.httpError s b ≠ GatewayError.authError) := by
  refine ⟨rfl, rfl, ?_⟩
  intro s b h
  exact GatewayError.noConfusion h

/-- C2 amended: the claimed table holds for the `healthmate_coach_ai`
Gateway Client — 200-with-`error` fails with the protocol error carrying the
payload, 200-without-`error` returns the body's `result`, 401/403/404 map to
the distinct auth/authz/not-found errors, every status ≥ 500 to the upstream
error carrying the body, any other non-200 to the generic HTTP error with
status and body, timeouts and connection failures to their own kinds — while
the `health_coach_ai` variant maps every non-200 status to the generic HTTP
error and distinguishes only the protocol-error and result cases at 200. -/
theorem c2_amended (env : Env) (tok : String) (url : String)
    (htok : tok ≠ "") (hurl : get_gateway_endpoint env = .ok url) :
    (call_mcp_gateway env (some tok) .timeout = .error .timeoutError) ∧
    (call_mcp_gateway env (some tok) .connectFail = .error .connectError) ∧
    (∀ body, call_mcp_gateway env (some tok) (.response 401 body) = .error .authError) ∧
    (∀ body, call_mcp_gateway env (some tok) (.response 403 body) = .error .authzError) ∧
    (∀ body, call_mcp_gateway env (some tok) (.response 404 body) = .error .notFoundError) ∧
    (∀ s body, 500 ≤ s →
      call_mcp_gateway env (some tok) (.response s body) = .error (.upstreamError s body)) ∧
    (∀ s body, s ≠ 200 → s ≠ 401 → s ≠ 403 → s ≠ 404 → s < 500 →
      call_mcp_gateway env (some tok) (.response s body) = .error (.httpError s body)) ∧
    (∀ body ms e, parseJson body = some (.obj ms) → jlookup "error" ms = some e →
      call_mcp_gateway env (some tok) (.response 200 body) = .error (.protocolError e)) ∧
    (∀ body ms, parseJson body = some (.obj ms) → jlookup "error" ms = none →
      call_mcp_gateway env (some tok) (.response 200 body) = .ok (jlookup "result" ms)) ∧
    (call_mcp_gateway envNoMemory (some "m2m-token") (.response 200 toolsListBody) =
      .ok (some (.obj [("tools", .arr [])]))) ∧
    (∀ s body, s ≠ 200 →
      call_mcp_gateway_legacy (some tok) (.response s body) = .error (.httpError s body)) ∧
    (∀ body ms e, parseJson body = some (.obj ms) → jlookup "error" ms = some e →
      call_mcp_gateway_legacy (some tok) (.response 200 body) = .error (.protocolError e)) ∧
    (∀ body ms, parseJson body = some (.obj ms) → jlookup "error" ms = none →
      call_mcp_gateway_legacy (some tok) (.response 200 body) = .ok (jlookup "result" ms)) := by
  have hcall : ∀ out, call_mcp_gateway env (some tok) out =
      match out with
      | .timeout => .error .timeoutError
      | .connectFail => .error .connectError
      | .response status body =>
        if status = 401 then .error .authError
        else if status = 403 then .error .authzError
        else if status = 404 then .error .notFoundError
        else if 500 ≤ status then .error (.upstreamError status body)
        else if status ≠ 200 then .error (.httpError status body)
        else classify200 body := by
    intro out
    unfold call_mcp_gateway
    simp only []
    rw [if_neg htok, hurl]
  have hleg : ∀ s body, call_mcp_gateway_legacy (some tok) (.response s body) =
      (if s ≠ 200 then .error (.httpError s body) else classify200 body) := by
    intro s body
    unfold call_mcp_gateway_legacy
    simp only []
    rw [if_neg htok]
  have h200 : ∀ body ms, parseJson body = some (.obj ms) →
      classify200 body =
        (match jlookup "error" ms with
         | some e => .error (.protocolError e)
         | none => .ok (jlookup "result" ms)) := by
    intro body ms hp
    unfold classify200
    rw [hp]
  refine ⟨by rw [hcall], by rw [hcall], ?_, ?_, ?_, ?_, ?_, ?_, ?_, by rfl, ?_, ?_, ?_⟩
  · intro body
    rw [hcall]
    rfl
  · intro body
    rw [hcall]
    rfl
  · intro body
    rw [hcall]
    rfl
  · intro s body hs
    rw [hcall]
    simp only []
    rw [if_neg (by omega), if_neg (by omega), if_neg (by omega), if_pos hs]
  · intro s body h200' h401 h403 h404 h500
    rw [hcall]
    simp only []
    rw [if_neg h401, if_neg h403, if_neg h404, if_neg (by omega), if_pos h200']
  · intro body ms e hp he
    rw [hcall]
    simp only []
    rw [if_neg (by omega), if_neg (by omega), if_neg (by omega), if_neg (by omega),
      if_neg (by omega), h200 body ms hp, he]
  · intro body ms hp he
    rw [hcall]
    simp only []
    rw [if_neg (by omega), if_neg (by omega), if_neg (by omega), if_neg (by omega),
      if_neg (by omega), h200 body ms hp, he]
  · intro s body hs
    rw [hleg, if_pos hs]
  · intro body ms e hp he
    rw [hleg, if_neg (by omega), h200 body ms hp, he]
  · intro body ms hp he
    rw [hleg, if_neg (by omega), h200 body ms hp, he]

/-- C2 amended, instantiated on a concrete environment and token: each
status class produces its kind. -/
theorem c2_amended_witness :
    (get_gateway_endpoint envNoMemory =
      .ok "https://gwabc12345.gateway.bedrock-agentcore.us-west-2.amazonaws.com/mcp") ∧
    call_mcp_gateway envNoMemory (some "m2m-token") (.response 401 "no") = .error .authError ∧
    call_mcp_gateway envNoMemory (some "m2m-token") (.response 503 "down") =
      .error (.upstreamError 503 "down") ∧
    call_mcp_gateway envNoMemory (some "m2m-token") .timeout = .error .timeoutError := by
  have h := c2_amended envNoMemory "m2m-token"
    "https://gwabc12345.gateway.bedrock-agentcore.us-west-2.amazonaws.com/mcp"
    (by decide) (by rfl)
  exact ⟨by rfl, h.2.2.1 "no", h.2.2.2.2.2.1 503 "down" (by omega), h.1⟩



/-! ## Claims C4, C5, C10: the Token Inspector -/

/-- Subject extraction never produces a falsy (in particular, empty)
identity: the `if not sub` guard raises before returning. -/
theorem get_sub_not_falsy (tok : String) (v : JsonValue)
    (h : get_sub_from_jwt tok = some v) : jsonFalsy v = false := by
  unfold get_sub_from_jwt at h
  rcases hpd : decode_jwt_payload tok with _ | b | n | s | l | members <;> rw [hpd] at h
  · simp [jsonFalsy] at h
  · cases b <;> simp [jsonFalsy] at h
  · by_cases hn : n = 0 <;> simp [jsonFalsy, hn] at h
  · by_cases hs : s = "" <;> simp [jsonFalsy, hs] at h
  · cases l <;> simp [jsonFalsy] at h
  · cases members with
    | nil => simp [jsonFalsy] at h
    | cons m ms =>
      rw [if_neg (by simp [jsonFalsy])] at h
      simp only [] at h
      cases hl : jlookup "sub" (m :: ms) with
      | none => simp [hl] at h
      | some sub =>
        rw [hl] at h
        simp only [] at h
        by_cases hsf : jsonFalsy sub = true
        · rw [if_pos hsf] at h
          cases h
        · rw [if_neg hsf] at h
          injection h with h2
          rw [← h2]
          simpa using hsf

/-- C4: (i) for every token whose dot-segment count is not 3, payload
decoding fails identically for *every* base64 decoder — the failure happens
before any base64 decoding is attempted; (ii) a token whose decoded payload
is an object lacking `sub` makes subject extraction fail; (iii) extraction
never yields a falsy subject, in particular never the empty string. -/
theorem c4_token_inspector :
    (∀ (b64a b64b : List Char → Option (List Nat)) (tok : String),
      (splitDot tok.data).length ≠ 3 →
      decodeJwtPayloadWith b64a tok = none ∧
      decodeJwtPayloadWith b64a tok = decodeJwtPayloadWith b64b tok) ∧
    (∀ (tok : String) (ms : List (String × JsonValue)),
      decode_jwt_payload tok = .obj ms → jlookup "sub" ms = none →
      get_sub_from_jwt tok = none) ∧
    (∀ (tok : String) (v : JsonValue),
      get_sub_from_jwt tok = some v → jsonFalsy v = false ∧ v ≠ .str "") := by
  refine ⟨?_, ?_, ?_⟩
  · intro b64a b64b tok hlen
    unfold decodeJwtPayloadWith
    rcases hsp : splitDot tok.data with _ | ⟨a, _ | ⟨b, _ | ⟨c, _ | ⟨d, t⟩⟩⟩⟩ <;>
      simp_all [List.length]
  · intro tok ms hdec hsub
    unfold get_sub_from_jwt
    rw [hdec]
    by_cases hemp : ms.isEmpty = true
    · rw [if_pos (by simp [jsonFalsy, hemp])]
    · rw [if_neg (by simp [jsonFalsy]; simp at hemp; simp [hemp])]
      simp only [hsub]
  · intro tok v h
    have hf := get_sub_not_falsy tok v h
    refine ⟨hf, ?_⟩
    intro hv
    rw [hv] at hf
    simp [jsonFalsy] at hf

/-- A well-formed 3-segment token whose payload object has no `sub`. -/
def tokenNoSub : String :=
  String.mk ('h' :: '.' ::
    (b64Encode (utf8Encode (serJson (.obj [("name", .str "x")]))) ++ '.' :: 's' :: []))

set_option maxRecDepth 8000 in
/-- C4 instantiated: a 2-segment token fails for any decoder; the concrete
no-`sub` token fails extraction; a token with `sub` yields it. -/
theorem c4_token_inspector_witness :
    (splitDot ("a.b" : String).data).length ≠ 3 ∧
    decodeJwtPayloadWith urlsafeB64Decode "a.b" = none ∧
    decode_jwt_payload tokenNoSub = .obj [("name", .str "x")] ∧
    jlookup "sub" [("name", .str "x")] = none ∧
    get_sub_from_jwt tokenNoSub = none := by
  refine ⟨by decide, ((c4_token_inspector.1 urlsafeB64Decode urlsafeB64Decode "a.b")
    (by decide)).1, by rfl, by rfl, ?_⟩
  exact c4_token_inspector.2.1 tokenNoSub [("name", .str "x")] (by rfl) (by rfl)

/-- C5: serializing any JSON object, encoding it as unpadded base64url, and
placing it as the middle segment of a synthetic 3-part token (any dot-free
header and signature) decodes back to the original object through
`_decode_jwt_payload`. -/
theorem c5_roundtrip (hdr sig : List Char) (members : List (String × JsonValue))
    (hh : ∀ c ∈ hdr, c.toNat ≠ 46) (hs : ∀ c ∈ sig, c.toNat ≠ 46) :
    decode_jwt_payload (String.mk
      (hdr ++ '.' :: (b64Encode (utf8Encode (serJson (.obj members))) ++ '.' :: sig))) =
      .obj members :=
  decode_jwt_payload_roundtrip hdr sig (.obj members) hh hs

set_option maxRecDepth 8000 in
/-- C5 instantiated on a concrete object with a nested array, a negative
number, and a non-ASCII escaped string. -/
theorem c5_roundtrip_witness :
    (∀ c ∈ ['h'], c.toNat ≠ 46) ∧ (∀ c ∈ ['s', 'i', 'g'], c.toNat ≠ 46) ∧
    decode_jwt_payload (String.mk
      (['h'] ++ '.' :: (b64Encode (utf8Encode (serJson (.obj
        [("sub", .str "u1"), ("n", .num (-7)), ("a", .arr [.null, .str "日\"本"])]))) ++
        '.' :: ['s', 'i', 'g']))) =
      .obj [("sub", .str "u1"), ("n", .num (-7)), ("a", .arr [.null, .str "日\"本"])] := by
  refine ⟨by decide, by decide, ?_⟩
  exact c5_roundtrip ['h'] ['s', 'i', 'g'] _ (by decide) (by decide)

/-- C10 counterexample: `_decode_jwt_payload` does not always return a
dictionary — for the token `h.WzFd.s`, whose middle segment is the
base64url encoding of `[1]`, it returns the JSON list `[1]`, which is not
an object for any member list. -/
theorem c10_array_payload_not_dict :
    decode_jwt_payload "h.WzFd.s" = .arr [.num 1] ∧
    (∀ ms : List (String × JsonValue), JsonValue.arr [.num 1] ≠ .obj ms) := by
  refine ⟨by rfl, ?_⟩
  intro ms h
  exact JsonValue.noConfusion h

/-- C10 amended: `_decode_jwt_payload` is total and never raises, but does
not always return a dictionary — its result is exactly the value the
fallible pipeline produced (whatever JSON the payload holds) or, whenever
that pipeline fails (any raised exception inside the `try`), the empty
dictionary; garbage, undecodable base64 and invalid JSON all surface as
`\x7b\x7d`. -/
theorem c10_decode_total :
    (∀ s : String,
      (∃ v, decodeJwtPayloadCore s = some v ∧ decode_jwt_payload s = v) ∨
      (decodeJwtPayloadCore s = none ∧ decode_jwt_payload s = .obj [])) ∧
    decode_jwt_payload "not-a-token" = .obj [] ∧
    decode_jwt_payload "a.!!!!.c" = .obj [] ∧
    decode_jwt_payload "h.AAAA.s" = .obj [] ∧
    decode_jwt_payload "a.b.c.d" = .obj [] := by
  refine ⟨?_, by rfl, by rfl, by rfl, by rfl⟩
  intro s
  unfold decode_jwt_payload
  cases h : decodeJwtPayloadCore s with
  | none => exact Or.inr ⟨rfl, rfl⟩
  | some v => exact Or.inl ⟨v, rfl, rfl⟩


end HealthCoachAI
namespace HealthCoachAI

/-! ## Claims C1, C8, C9: the entrypoint orchestrator -/

/-- The payload's session attributes (empty when absent). -/
def payloadAttrs (p : Payload) : List (String × String) := p.sessionAttrs.getD []

/-- The claim's first validation failure: `jwt_token` absent or empty. -/
def jwtMissing (p : Payload) : Prop :=
  lookupStr (payloadAttrs p) "jwt_token" = none ∨
  lookupStr (payloadAttrs p) "jwt_token" = some ""

/-- `session_id` absent (or empty, which the same guard catches). -/
def sessionIdMissing (p : Payload) : Prop :=
  lookupStr (payloadAttrs p) "session_id" = none ∨
  lookupStr (payloadAttrs p) "session_id" = some ""

/-- `session_id` present but shorter than 33 characters. -/
def sessionIdShort (p : Payload) : Prop :=
  ∃ s, lookupStr (payloadAttrs p) "session_id" = some s ∧ s.length < 33

/-- Subject extraction fails for the payload's token. -/
def subFailure (p : Payload) : Prop :=
  ∃ tok, lookupStr (payloadAttrs p) "jwt_token" = some tok ∧ get_sub_from_jwt tok = none

/-- C1: a payload failing validation (`jwt_token` missing or empty,
`session_id` missing, or `session_id` shorter than 33) makes the entrypoint
emit exactly one error event and stop: no gateway or credential call, no
memory scope, no agent, no queue — whatever the post-validation phase would
do — and when `jwt_token` is the missing field, the single event's text
contains the substring `jwt_token`. -/
theorem c1_validation_rejects (phase : ValidatedRequest → RunEffects) (p : Payload)
    (h : jwtMissing p ∨ sessionIdMissing p ∨ sessionIdShort p) :
    (invoke phase p).events.length = 1 ∧
    (invoke phase p).gatewayCalls = 0 ∧
    (invoke phase p).credentialCalls = 0 ∧
    (invoke phase p).memoryScopes = [] ∧
    (invoke phase p).agentsConstructed = 0 ∧
    (invoke phase p).queuesCreated = 0 ∧
    (jwtMissing p → ∃ pre post,
      (invoke phase p).events = [textDeltaEvent (pre ++ "jwt_token" ++ post)]) := by
  have hr : ∃ msg, invoke_prologue p = .rejected (textDeltaEvent msg) ∧
      (jwtMissing p → ∃ pre post, msg = pre ++ "jwt_token" ++ post) := by
    simp only [jwtMissing, sessionIdMissing, sessionIdShort, payloadAttrs] at h ⊢
    cases hj : lookupStr (p.sessionAttrs.getD []) "jwt_token" with
    | none =>
      refine ⟨jwtMissingMsg, by simp [invoke_prologue, hj], fun _ =>
        ⟨"エラー: 必須フィールド '", "' がペイロードに含まれていません。認証が必要です。", by rfl⟩⟩
    | some tok =>
      by_cases htok : tok = ""
      · subst htok
        refine ⟨jwtMissingMsg, by simp [invoke_prologue, hj], fun _ =>
          ⟨"エラー: 必須フィールド '", "' がペイロードに含まれていません。認証が必要です。", by rfl⟩⟩
      · have hnj : ¬ (lookupStr (p.sessionAttrs.getD []) "jwt_token" = none ∨
            lookupStr (p.sessionAttrs.getD []) "jwt_token" = some "") := by
          rw [hj]
          simp [htok]
        have hss : lookupStr (p.sessionAttrs.getD []) "session_id" = none ∨
            lookupStr (p.sessionAttrs.getD []) "session_id" = some "" ∨
            (∃ s, lookupStr (p.sessionAttrs.getD []) "session_id" = some s ∧ s.length < 33) := by
          rcases h with hj' | hs' | hl'
          · exact absurd hj' hnj
          · rcases hs' with hs' | hs'
            · exact Or.inl hs'
            · exact Or.inr (Or.inl hs')
          · exact Or.inr (Or.inr hl')
        cases hs : lookupStr (p.sessionAttrs.getD []) "session_id" with
        | none =>
          refine ⟨sessionMissingMsg, by simp [invoke_prologue, hj, htok, hs], fun hjm =>
            absurd hjm (by simp [htok])⟩
        | some sid =>
          by_cases hemp : sid = ""
          · subst hemp
            refine ⟨sessionMissingMsg, by simp [invoke_prologue, hj, htok, hs], fun hjm =>
              absurd hjm (by simp [htok])⟩
          · have hlen : sid.length < 33 := by
              rcases hss with hs' | hs' | ⟨s, hs', hl'⟩
              · rw [hs] at hs'; cases hs'
              · rw [hs] at hs'; injection hs' with he; exact absurd he hemp
              · rw [hs] at hs'; injection hs' with he; rw [he]; exact hl'
            refine ⟨sessionShortMsg sid.length,
              by simp [invoke_prologue, hj, htok, hs, hemp, hlen], fun hjm =>
              absurd hjm (by simp [htok])⟩
  obtain ⟨msg, hpro, hjwt⟩ := hr
  have hi : invoke phase p = earlyReturn [textDeltaEvent msg] := by
    unfold invoke
    rw [hpro]
  rw [hi]
  refine ⟨rfl, rfl, rfl, rfl, rfl, rfl, fun hm => ?_⟩
  obtain ⟨pre, post, hmsg⟩ := hjwt hm
  exact ⟨pre, post, by rw [hmsg]; rfl⟩

/-- The 33-character session id of Scenario A. -/
def xs33 : String := String.mk (List.replicate 33 'x')

/-- A well-formed token whose payload is `\x7b"sub": "u1"\x7d`. -/
def validTokenU1 : String :=
  String.mk ('h' :: '.' ::
    (b64Encode (utf8Encode (serJson (.obj [("sub", .str "u1")]))) ++ '.' :: 's' :: []))

/-- Scenario A: prompt `"hi"`, valid session id and token, no timezone, no
language. -/
def scenarioA : Payload :=
  ⟨some "hi", some [("session_id", xs33), ("jwt_token", validTokenU1)]⟩

/-- The validated request Scenario A produces. -/
def scenarioAValidated : ValidatedRequest :=
  ⟨"hi", xs33, validTokenU1, "Asia/Tokyo", "ja", .str "u1"⟩

set_option maxRecDepth 8000 in
/-- C8: when validation passes, an absent `timezone` defaults to
`Asia/Tokyo` and an absent `language` to `ja`; a rejection is only ever due
to `jwt_token`, `session_id` or subject extraction (so those two fields
alone tolerate absence); and the concrete Scenario A payload is accepted
with both defaults filled in. -/
theorem c8_optional_field_defaults :
    (∀ p v, invoke_prologue p = .proceed v →
      (lookupStr (payloadAttrs p) "timezone" = none → v.timezone = "Asia/Tokyo") ∧
      (lookupStr (payloadAttrs p) "language" = none → v.language = "ja")) ∧
    (∀ p ev, invoke_prologue p = .rejected ev →
      jwtMissing p ∨ sessionIdMissing p ∨ sessionIdShort p ∨ subFailure p) ∧
    invoke_prologue scenarioA = .proceed scenarioAValidated := by
  refine ⟨?_, ?_, by rfl⟩
  · intro p v h
    simp only [invoke_prologue] at h
    split at h
    · exact Prologue.noConfusion h
    · split at h
      · exact Prologue.noConfusion h
      · split at h
        · exact Prologue.noConfusion h
        · split at h
          · exact Prologue.noConfusion h
          · split at h
            · exact Prologue.noConfusion h
            · split at h
              · exact Prologue.noConfusion h
              · split at h
                · exact Prologue.noConfusion h
                · split at h
                  · exact Prologue.noConfusion h
                  · injection h with hv
                    rw [← hv]
                    constructor
                    · intro habs
                      simp only [payloadAttrs] at habs
                      rw [habs]
                      rfl
                    · intro habs
                      simp only [payloadAttrs] at habs
                      rw [habs]
                      rfl
  · intro p ev h
    unfold jwtMissing sessionIdMissing sessionIdShort subFailure payloadAttrs
    cases hj : lookupStr (p.sessionAttrs.getD []) "jwt_token" with
    | none => exact Or.inl (Or.inl rfl)
    | some tok =>
      by_cases htok : tok = ""
      · subst htok
        exact Or.inl (Or.inr rfl)
      · cases hs : lookupStr (p.sessionAttrs.getD []) "session_id" with
        | none => exact Or.inr (Or.inl (Or.inl rfl))
        | some sid =>
          by_cases hemp : sid = ""
          · subst hemp
            exact Or.inr (Or.inl (Or.inr rfl))
          · by_cases hlen : sid.length < 33
            · exact Or.inr (Or.inr (Or.inl ⟨sid, rfl, hlen⟩))
            · cases hsub : get_sub_from_jwt tok with
              | none => exact Or.inr (Or.inr (Or.inr ⟨tok, rfl, hsub⟩))
              | some actor =>
                have hfal : jsonFalsy actor = false := get_sub_not_falsy tok actor hsub
                exfalso
                by_cases hpr : p.prompt.getD "" = "" <;>
                  simp [invoke_prologue, hj, htok, hs, hemp, hlen, hsub, hfal, hpr] at h

set_option maxRecDepth 8000 in
/-- C8 instantiated: Scenario A's validated request carries the defaults. -/
theorem c8_optional_field_defaults_witness :
    scenarioAValidated.timezone = "Asia/Tokyo" ∧ scenarioAValidated.language = "ja" := by
  have h := c8_optional_field_defaults
  exact ⟨(h.1 scenarioA scenarioAValidated h.2.2).1 rfl,
    (h.1 scenarioA scenarioAValidated h.2.2).2 rfl⟩

/-- C9: a payload that passes every validation step but has an absent or
empty prompt yields exactly the greeting event and stops: no queue is
created, no agent constructed, no gateway or credential call — whatever
the post-validation phase would do. -/
theorem c9_empty_prompt_greets (phase : ValidatedRequest → RunEffects) (p : Payload)
    (tok sid : String) (actor : JsonValue)
    (hj : lookupStr (payloadAttrs p) "jwt_token" = some tok) (htok : tok ≠ "")
    (hs : lookupStr (payloadAttrs p) "session_id" = some sid) (hlen : 33 ≤ sid.length)
    (hsub : get_sub_from_jwt tok = some actor)
    (hp : p.prompt = none ∨ p.prompt = some "") :
    invoke phase p = earlyReturn [textDeltaEvent greetingMsg] ∧
    (invoke phase p).events = [textDeltaEvent greetingMsg] ∧
    (invoke phase p).queuesCreated = 0 ∧
    (invoke phase p).agentsConstructed = 0 ∧
    (invoke phase p).gatewayCalls = 0 ∧
    (invoke phase p).credentialCalls = 0 := by
  unfold payloadAttrs at hj hs
  have hemp : ¬ sid = "" := by
    intro he
    rw [he] at hlen
    exact absurd hlen (by decide)
  have hnl : ¬ sid.length < 33 := by omega
  have hfal : jsonFalsy actor = false := get_sub_not_falsy tok actor hsub
  have hpr : p.prompt.getD "" = "" := by
    rcases hp with hp | hp <;> rw [hp] <;> rfl
  have hi : invoke phase p = earlyReturn [textDeltaEvent greetingMsg] := by
    unfold invoke
    simp [invoke_prologue, hj, htok, hs, hemp, hnl, hsub, hfal, hpr]
  rw [hi]
  exact ⟨rfl, rfl, rfl, rfl, rfl, rfl⟩

/-- A validation-failing payload: no session attributes at all. -/
def emptyAttrsPayload : Payload := ⟨some "hi", some []⟩

/-- The Scenario A payload with the prompt removed. -/
def noPromptPayload : Payload :=
  ⟨none, some [("session_id", xs33), ("jwt_token", validTokenU1)]⟩

/-- A phase that would perform visible work, to witness that early returns
ignore it. -/
def probePhase : ValidatedRequest → RunEffects :=
  fun _ => ⟨[], 5, 5, [⟨"mem0123456", "s", "a"⟩], 5, 5⟩

/-- C1 instantiated: a payload without `jwt_token` is rejected with one
event mentioning `jwt_token`, with all side-effect counters zero. -/
theorem c1_validation_rejects_witness :
    (invoke probePhase emptyAttrsPayload).events.length = 1 ∧
    (invoke probePhase emptyAttrsPayload).gatewayCalls = 0 ∧
    (invoke probePhase emptyAttrsPayload).credentialCalls = 0 ∧
    (invoke probePhase emptyAttrsPayload).memoryScopes = [] ∧
    (invoke probePhase emptyAttrsPayload).agentsConstructed = 0 ∧
    (invoke probePhase emptyAttrsPayload).queuesCreated = 0 ∧
    (jwtMissing emptyAttrsPayload → ∃ pre post,
      (invoke probePhase emptyAttrsPayload).events =
        [textDeltaEvent (pre ++ "jwt_token" ++ post)]) :=
  c1_validation_rejects probePhase emptyAttrsPayload (Or.inl (Or.inl rfl))

set_option maxRecDepth 8000 in
/-- C9 instantiated: Scenario A without a prompt greets and bypasses the
probing phase entirely. -/
theorem c9_empty_prompt_greets_witness :
    invoke probePhase noPromptPayload = earlyReturn [textDeltaEvent greetingMsg] ∧
    (invoke probePhase noPromptPayload).events = [textDeltaEvent greetingMsg] ∧
    (invoke probePhase noPromptPayload).queuesCreated = 0 ∧
    (invoke probePhase noPromptPayload).agentsConstructed = 0 ∧
    (invoke probePhase noPromptPayload).gatewayCalls = 0 ∧
    (invoke probePhase noPromptPayload).credentialCalls = 0 :=
  c9_empty_prompt_greets probePhase noPromptPayload validTokenU1 xs33 (.str "u1")
    rfl (by decide) rfl (by decide) rfl (Or.inl rfl)

end HealthCoachAI
namespace HealthCoachAI

/-! ## Claim C7: relay start and terminal events -/

/-- A text-delta queue item is never terminal. -/
theorem isTerminal_textDelta (t : String) : isTerminalEvent (textDeltaEvent t) = false := rfl

/-- A tool-use progress item is never terminal. -/
theorem isTerminal_toolUse (m : String) (t : Option String) :
    isTerminalEvent (progressEvent m "tool_use" t) = false := rfl

/-- A well-formed raw agent event extracts only non-terminal queue items. -/
theorem extract_not_terminal (e : AgentEvent) (hwf : agentEventWf e = true) :
    ∀ x ∈ (extract_health_coach_events e).1, isTerminalEvent x = false := by
  intro x hx
  cases e with
  | text s =>
    simp [extract_health_coach_events] at hx
    rw [hx]
    exact isTerminal_textDelta s
  | dict j =>
    have hsp : (jGet j "event").bind (fun x => jGet x "subAgentProgress") = none := by
      simpa [agentEventWf, Option.isNone_iff_eq_none] using hwf
    cases hev : jGet j "event" with
    | none =>
      simp [extract_health_coach_events, hev] at hx
    | some eventData =>
      have hj : isTerminalEvent j = false := by
        simp [isTerminalEvent, hsp]
      simp only [extract_health_coach_events, hev] at hx
      split at hx <;> try (split at hx)
      all_goals simp at hx
      all_goals first
        | exact hj
        | (rw [hx]; exact hj)
        | (rw [hx]; exact isTerminal_toolUse _ _)
        | ((rcases hx with hx | hx) <;>
            first
              | (rw [hx]; exact isTerminal_toolUse _ _)
              | (rw [hx]; exact hj))

/-- The `error` terminal item is terminal whatever the wrapped message. -/
theorem isTerminal_error (m : String) :
    isTerminalEvent (progressEvent m "error" none) = true := by
  simp [isTerminalEvent, progressEvent, jGet, jlookup]

/-- C7: for every agent run whose raw stream is well formed (no raw event
carries its own `subAgentProgress` payload), the relay's queue starts with
the `start` progress event, contains exactly one terminal progress event —
never zero, never more — and that terminal event is last: stage `complete`
when the run finished, stage `error` wrapping the message when it raised. -/
theorem c7_relay_exactly_one_terminal (run : AgentRun)
    (hwf : ∀ e ∈ run.events, agentEventWf e = true) :
    (invoke_health_coach_queue run).head? =
      some (progressEvent "Healthmate-CoachAIが起動中" "start" none) ∧
    (invoke_health_coach_queue run).countP isTerminalEvent = 1 ∧
    (run.failure = none →
      (invoke_health_coach_queue run).getLast? =
        some (progressEvent "Healthmate-CoachAIが応答を完了" "complete" none)) ∧
    (∀ msg, run.failure = some msg →
      (invoke_health_coach_queue run).getLast? =
        some (progressEvent ("AgentCore Memory統合エラー: " ++ msg) "error" none)) := by
  have hmid : ∀ x ∈ run.events.flatMap (fun e => (extract_health_coach_events e).1),
      isTerminalEvent x = false := by
    intro x hx
    rw [List.mem_flatMap] at hx
    obtain ⟨e, he, hxe⟩ := hx
    exact extract_not_terminal e (hwf e he) x hxe
  have hmid0 : (run.events.flatMap (fun e => (extract_health_coach_events e).1)).countP
      isTerminalEvent = 0 := by
    rw [List.countP_eq_zero]
    intro a ha
    simp [hmid a ha]
  have hterm : isTerminalEvent (match run.failure with
      | none => progressEvent "Healthmate-CoachAIが応答を完了" "complete" none
      | some msg => progressEvent ("AgentCore Memory統合エラー: " ++ msg) "error" none)
      = true := by
    cases run.failure with
    | none => rfl
    | some msg => exact isTerminal_error _
  refine ⟨rfl, ?_, ?_, ?_⟩
  · rw [invoke_health_coach_queue, List.countP_cons, List.countP_append, hmid0,
      List.countP_cons, hterm]
    rfl
  · intro hf
    rw [invoke_health_coach_queue, hf, ← List.cons_append, List.getLast?_concat]
  · intro msg hf
    rw [invoke_health_coach_queue, hf, ← List.cons_append, List.getLast?_concat]

/-- A concrete failing run with one text chunk. -/
def c7run : AgentRun := ⟨[.text "hello"], some "boom"⟩

/-- C7 instantiated: the failing run's queue holds exactly one terminal
event and ends with the wrapped `error` event. -/
theorem c7_relay_exactly_one_terminal_witness :
    (invoke_health_coach_queue c7run).head? =
      some (progressEvent "Healthmate-CoachAIが起動中" "start" none) ∧
    (invoke_health_coach_queue c7run).countP isTerminalEvent = 1 ∧
    (invoke_health_coach_queue c7run).getLast? =
      some (progressEvent ("AgentCore Memory統合エラー: " ++ "boom") "error" none) := by
  have h := c7_relay_exactly_one_terminal c7run (by
    intro e he
    simp [c7run] at he
    rw [he]
    rfl)
  exact ⟨h.1, h.2.1, h.2.2.2 "boom" rfl⟩

end HealthCoachAI
